import Mathlib

/-!
Verification of the NLP_Phenotyper core engine (normalization, HER2
reconciliation, evidence support and patient aggregation), as a shallow
embedding of the Python sources `phenotyper/normalize.py`,
`phenotyper/aggregate.py`, `phenotyper/schema.py`, `phenotyper/extract.py`
and `phenotyper/preprocess.py`.

Python strings are modelled as Lean `String`, Python runtime values that
flow through note-record dicts and evidence rows as the inductive `PyVal`,
and Python dicts as association lists with first-key lookup.
-/

/-- A Python runtime value as it occurs in note-record dicts and evidence
rows: `None`, a string, an int, a float with integral value (`v.is_integer()`
holds, carrying that integer), or a non-integral float (carrying its `str()`
rendering). -/
inductive PyVal where
  | vnone
  | vstr (s : String)
  | vint (n : Int)
  | vfloatInt (n : Int)
  | vfloatOther (rep : String)
deriving DecidableEq, Repr

/-- Python truthiness (`if v:`) for the values we model. -/
def pyTruthy : PyVal → Bool
  | .vnone => false
  | .vstr s => s ≠ ""
  | .vint n => n ≠ 0
  | .vfloatInt n => n ≠ 0
  | .vfloatOther _ => true

/-- Python `==` between the modelled values: strings compare with strings,
numbers compare numerically (so `35 == 35.0`), `None` only with `None`. -/
def pyEq : PyVal → PyVal → Bool
  | .vnone, .vnone => true
  | .vstr a, .vstr b => a == b
  | .vint a, .vint b => a == b
  | .vint a, .vfloatInt b => a == b
  | .vfloatInt a, .vint b => a == b
  | .vfloatInt a, .vfloatInt b => a == b
  | .vfloatOther a, .vfloatOther b => a == b
  | _, _ => false

/-- Python `str()` of a modelled value. -/
def pyStr : PyVal → String
  | .vnone => "None"
  | .vstr s => s
  | .vint n => toString n
  | .vfloatInt n => toString n ++ ".0"
  | .vfloatOther rep => rep

/-- `Optional[str]` into a dict slot (`None` ↦ `vnone`). -/
def optToVal : Option String → PyVal
  | none => .vnone
  | some s => .vstr s

/-- Python `a or b` on the modelled values. -/
def pyOr (a b : PyVal) : PyVal := if pyTruthy a then a else b

/-- Python truthiness of an `Optional[str]`. -/
def optTruthy : Option String → Bool
  | none => false
  | some s => s ≠ ""

/-- A Python dict with string keys, as an insertion-ordered association
list (construction never creates duplicate keys). -/
abbrev Dict := List (String × PyVal)

/-- `d.get(k)` (default `None`): value of the first entry with this key. -/
def dget : Dict → String → PyVal
  | [], _ => .vnone
  | p :: d, k => if p.1 = k then p.2 else dget d k

/-- `d[k] = v`: replace the value at the key in place, or append a new
entry (Python dicts keep the key's original position on re-assignment). -/
def dset : Dict → String → PyVal → Dict
  | [], k, v => [(k, v)]
  | p :: d, k, v => if p.1 = k then (k, v) :: d else p :: dset d k v

/-- Is `sub` a contiguous segment of the second list? -/
def listIsInfix (sub : List Char) : List Char → Bool
  | [] => sub.isEmpty
  | c :: cs => sub.isPrefixOf (c :: cs) || listIsInfix sub cs

/-- Substring test, Python `sub in s`. -/
def strContains (s sub : String) : Bool := listIsInfix sub.data s.data

/-- Python `str.lower()` (ASCII case folding). -/
def pyLower (s : String) : String := String.mk (s.data.map Char.toLower)

/-- Regex word character `\w` (ASCII model): letters, digits, underscore. -/
def isWordChar (c : Char) : Bool := c.isAlphanum || c == '_'

/-- Python `str.strip()`: whitespace removed from both ends. -/
def pyStrip (s : String) : String :=
  String.mk (((s.data.dropWhile Char.isWhitespace).reverse.dropWhile
    Char.isWhitespace).reverse)

/-- Python `str.startswith`. -/
def strStartsWith (s pre : String) : Bool := pre.data.isPrefixOf s.data

/-- Python `str.endswith`. -/
def strEndsWith (s suf : String) : Bool := suf.data.reverse.isPrefixOf s.data.reverse

/-- Python `str.split("-")`. -/
def splitOnDash : List Char → List (List Char)
  | [] => [[]]
  | '-' :: rest => [] :: splitOnDash rest
  | c :: rest =>
    match splitOnDash rest with
    | [] => [[c]]
    | g :: gs => (c :: g) :: gs

-- ---------------------------------------------------------------------
-- phenotyper/normalize.py
-- ---------------------------------------------------------------------

/-- Leftmost run of up to three consecutive digits (capture of
`(\d{1,3})` under `re.search`, the trailing `\s*%?` being unconstraining). -/
def firstDigitRun : List Char → Option (List Char)
  | [] => none
  | c :: cs =>
    if c.isDigit then some (c :: (cs.takeWhile Char.isDigit).take 2)
    else firstDigitRun cs

/-- Digits to the number they denote. -/
def digitsToNat (ds : List Char) : Nat :=
  ds.foldl (fun acc c => 10 * acc + (c.toNat - 48)) 0

/-- `normalize_percent` (normalize.py): first 1–3 digit run, accepted only
when the value is in `[0, 100]`. -/
def normalize_percent (text : String) : Option Nat :=
  if text = "" then none
  else
    match firstDigitRun text.data with
    | none => none
    | some ds =>
      let val := digitsToNat ds
      if val ≤ 100 then some val else none

/-- `normalize_status` (normalize.py). -/
def normalize_status (text : Option String) : Option String :=
  match text with
  | none => none
  | some t0 =>
    let t := pyLower (pyStrip t0)
    if t = "" then none
    else if t = "positive" ∨ t = "pos" ∨ t = "+" ∨ t = "yes" ∨ t = "detected" then
      some "Positive"
    else if t = "negative" ∨ t = "neg" ∨ t = "-" ∨ t = "no" ∨ t = "not detected" then
      some "Negative"
    else if t = "equivocal" ∨ t = "borderline" ∨ t = "indeterminate" then
      some "Equivocal"
    else if t = "unknown" ∨ t = "pending" ∨ t = "n/a" ∨ t = "na" then
      some "Unknown"
    else if strEndsWith t "+" then some "Positive"
    else if strEndsWith t "-" then some "Negative"
    else none

/-- The score table of `ihc_to_status` over the cleaned score string. -/
def ihcTable (s : String) : Option String :=
  if s = "3+" ∨ s = "3" then some "Positive"
  else if s = "2+" ∨ s = "2" then some "Equivocal"
  else if s = "1+" ∨ s = "1" ∨ s = "0" ∨ s = "0+" then some "Negative"
  else if s = "0/1+" ∨ s = "0-1+" ∨ s = "0-1" then some "Negative"
  else none

/-- `ihc_to_status` (normalize.py); `re.sub(r"\s+", "", s)` removes every
whitespace character. -/
def ihc_to_status (ihc : Option String) : Option String :=
  match ihc with
  | none => none
  | some i0 =>
    if i0 = "" then none
    else ihcTable (String.mk ((pyLower (pyStrip i0)).data.filter (fun c => !c.isWhitespace)))

/-- The keyword cascade of `fish_to_status` over the cleaned FISH text. -/
def fishKeyword (s : String) : Option String :=
  if strContains s "not amplified" ∨ strContains s "nonampl" ∨ strContains s "non-ampl" then
    some "Negative"
  else if strContains s "no ampl" ∨ strContains s "no amplification" then
    some "Negative"
  else if strContains s "amplified" ∨ strContains s "amplification" then
    some "Positive"
  else if strContains s "positive" ∨ strContains s "pos" then
    some "Positive"
  else if strContains s "negative" ∨ strContains s "neg" then
    some "Negative"
  else none

/-- `fish_to_status` (normalize.py). -/
def fish_to_status (fish : Option String) : Option String :=
  match fish with
  | none => none
  | some f0 =>
    if f0 = "" then none
    else fishKeyword (pyLower (pyStrip f0))

/-- `her2_final_status` (normalize.py): FISH, then IHC, then explicit text. -/
def her2_final_status (ihc_score fish explicit : Option String) :
    Option String × Option String :=
  let fish_status := fish_to_status fish
  if optTruthy fish_status then (fish_status, some "fish")
  else
    let ihc_status := ihc_to_status ihc_score
    if optTruthy ihc_status then (ihc_status, some "ihc")
    else
      let exp := normalize_status explicit
      if exp = some "Positive" ∨ exp = some "Negative" ∨ exp = some "Equivocal" then
        (exp, some "explicit")
      else (none, none)

/-- `reconcile_her2` (normalize.py): same precedence, returning the stripped
IHC and FISH strings alongside the status. -/
def reconcile_her2 (ihc_score fish explicit : Option String) :
    Option String × Option String × Option String :=
  let ihc' : Option String :=
    match ihc_score with
    | some s => if s ≠ "" then some (pyStrip s) else none
    | none => none
  let fish' : Option String :=
    match fish with
    | some s => if s ≠ "" then some (pyStrip s) else none
    | none => none
  let explicit' : Option String :=
    match explicit with
    | some s => if s ≠ "" then some (pyStrip s) else none
    | none => none
  let fish_status := fish_to_status fish'
  if optTruthy fish_status then (fish_status, ihc', fish')
  else
    let ihc_status := ihc_to_status ihc'
    if optTruthy ihc_status then (ihc_status, ihc', fish')
    else
      let exp := normalize_status explicit'
      if exp = some "Positive" ∨ exp = some "Negative" ∨ exp = some "Equivocal" then
        (exp, ihc', fish')
      else (none, ihc', fish')

/-- Try a match of `\bgrade\s*[:\-]?\s*(\d)\b` starting at the current
position (`prev` is the character just before it, for the word boundary). -/
def gradeStep (prev : Option Char) (cs : List Char) : Option Char :=
  if prev.elim true (fun c => !isWordChar c) then
    match cs with
    | 'g' :: 'r' :: 'a' :: 'd' :: 'e' :: rest =>
      let rest1 := rest.dropWhile Char.isWhitespace
      let rest2 :=
        match rest1 with
        | ':' :: r => r.dropWhile Char.isWhitespace
        | '-' :: r => r.dropWhile Char.isWhitespace
        | _ => rest1
      match rest2 with
      | d :: after =>
        if d.isDigit ∧ after.head?.elim true (fun c => !isWordChar c) then some d
        else none
      | [] => none
    | _ => none
  else none

/-- Scan every start position of the text, leftmost match first; `step`
receives the previous character so it can test a leading word boundary. -/
def scanText (step : Option Char → List Char → Option α) :
    Option Char → List Char → Option α
  | prev, [] => step prev []
  | prev, c :: cs =>
    match step prev (c :: cs) with
    | some r => some r
    | none => scanText step (some c) cs

/-- `normalize_grade` (normalize.py): the token `grade`, optional `:` or `-`
punctuation, then a single digit which must be 1–3. -/
def normalize_grade (text : String) : Option String :=
  if text = "" then none
  else
    match scanText gradeStep none (pyLower text).data with
    | some g =>
      if g = '1' ∨ g = '2' ∨ g = '3' then some (String.mk [g]) else none
    | none => none

/-- One attempt of the tail of the stage regex after the roman-letter run,
with the `\s*` taking exactly `k` characters: optional `([abc])` (greedy,
tried first), then `\b`. -/
def stageTryAt (roman rest2 : List Char) (k : Nat) : Option (List Char × List Char) :=
  let p := rest2.drop k
  let withSuf : Option (List Char × List Char) :=
    match p with
    | c :: after =>
      if (c = 'a' ∨ c = 'b' ∨ c = 'c') ∧ after.head?.elim true (fun d => !isWordChar d) then
        some (roman, [c])
      else none
    | [] => none
  match withSuf with
  | some r => some r
  | none =>
    let ok : Bool :=
      if k = 0 then p.head?.elim true (fun d => !isWordChar d)
      else p.head?.elim false (fun d => isWordChar d)
    if ok then some (roman, []) else none

/-- Backtracking tail of the stage regex: the greedy `\s*` tries its maximal
length first, then backs off one character at a time. -/
def stageTail (roman rest2 : List Char) : Nat → Option (List Char × List Char)
  | 0 => stageTryAt roman rest2 0
  | k + 1 =>
    match stageTryAt roman rest2 (k + 1) with
    | some r => some r
    | none => stageTail roman rest2 k

/-- Try a match of `\bstage\s*([ivx]+)\s*([abc])?\b` at the current
position.  The roman-letter run must be maximal (a shorter run leaves a
word character directly after, killing the trailing boundary). -/
def stageStep (prev : Option Char) (cs : List Char) : Option (List Char × List Char) :=
  if prev.elim true (fun c => !isWordChar c) then
    match cs with
    | 's' :: 't' :: 'a' :: 'g' :: 'e' :: rest =>
      let rest1 := rest.dropWhile Char.isWhitespace
      let roman := rest1.takeWhile (fun c => c = 'i' ∨ c = 'v' ∨ c = 'x')
      if roman.isEmpty then none
      else
        let rest2 := rest1.dropWhile (fun c => c = 'i' ∨ c = 'v' ∨ c = 'x')
        stageTail roman rest2 (rest2.takeWhile Char.isWhitespace).length
    | _ => none
  else none

/-- `normalize_stage` (normalize.py): `stage` + roman-letter run `[ivx]+` +
optional `a`/`b`/`c` suffix, uppercased. -/
def normalize_stage (text : String) : Option String :=
  if text = "" then none
  else
    match scanText stageStep none (pyLower text).data with
    | none => none
    | some (roman, suffix) =>
      some (String.mk (roman.map Char.toUpper) ++ String.mk (suffix.map Char.toUpper))

/-- `normalize_histology` (normalize.py). -/
def normalize_histology (text : String) : Option String :=
  if text = "" then none
  else
    let t := pyLower text
    let has_idc := strContains t "invasive ductal" || strContains t "idc"
    let has_ilc := strContains t "invasive lobular" || strContains t "ilc"
    if has_idc && has_ilc then some "Mixed"
    else if strContains t "dcis" || strContains t "ductal carcinoma in situ" then some "DCIS"
    else if has_idc then some "IDC"
    else if has_ilc then some "ILC"
    else none

-- ---------------------------------------------------------------------
-- phenotyper/schema.py
-- ---------------------------------------------------------------------

/-- `PHENOTYPE_COLUMNS_V1` (schema.py): the v1 patient-record column set. -/
def PHENOTYPE_COLUMNS_V1 : List String :=
  ["patient_id",
   "er_status", "er_percent", "er_confidence",
   "pr_status", "pr_percent", "pr_confidence",
   "her2_ihc_score", "her2_fish", "her2_final_status", "her2_confidence",
   "ki67_percent", "ki67_confidence",
   "histology", "histology_confidence", "grade",
   "stage_clinical", "stage_path"]

/-- `NOTE_TYPE_PRECEDENCE` (schema.py) as the total lookup
`NOTE_TYPE_PRECEDENCE.get(note_type, 0)` applied to the raw dict value. -/
def NOTE_TYPE_PRECEDENCE (v : PyVal) : Int :=
  if v = .vstr "Pathology" then 100
  else if v = .vstr "SurgicalPathology" then 100
  else if v = .vstr "PathologyAddendum" then 100
  else if v = .vstr "Addendum" then 100
  else if v = .vstr "OncologyConsult" then 70
  else if v = .vstr "Radiology" then 40
  else if v = .vstr "ProgressNote" then 30
  else if v = .vstr "Unknown" then 0
  else if v = .vstr "" then 0
  else if v = .vnone then 0
  else 0

-- ---------------------------------------------------------------------
-- phenotyper/aggregate.py
-- ---------------------------------------------------------------------

/-- A calendar date, used only through its ordinal. -/
structure PyDate where
  year : Nat
  month : Nat
  day : Nat
deriving DecidableEq, Repr

/-- Modelled from the spec: the external date parser (`dateutil.parser.parse`
followed by `.date()`, which is not part of this repository) is modelled as
a parser of `YYYY-MM-DD` calendar-date strings; every other input fails,
standing in for the exceptions `_parse_date` catches. -/
def dtparse (s : String) : Option PyDate :=
  match splitOnDash (pyStrip s).data with
  | [ys, ms, ds] =>
    if ys ≠ [] ∧ ys.all Char.isDigit ∧ ms ≠ [] ∧ ms.all Char.isDigit ∧
        ds ≠ [] ∧ ds.all Char.isDigit then
      let y := digitsToNat ys
      let m := digitsToNat ms
      let d := digitsToNat ds
      if 1 ≤ y ∧ y ≤ 9999 ∧ 1 ≤ m ∧ m ≤ 12 ∧ 1 ≤ d ∧ d ≤ 31 then
        some ⟨y, m, d⟩
      else none
    else none
  | _ => none

/-- Modelled from the spec: `date.toordinal()`, an order-preserving encoding
of calendar dates into the positive integers (day one has ordinal 1). -/
def toordinal (d : PyDate) : Int :=
  ((d.year - 1) * 372 + (d.month - 1) * 31 + (d.day - 1) + 1 : Nat)

/-- `_parse_date` (aggregate.py): falsy input or any parse failure yields
`None` (the `try/except` never lets an error escape). -/
def _parse_date (d : PyVal) : Option PyDate :=
  if pyTruthy d then
    match d with
    | .vstr s => dtparse s
    | _ => none
  else none

/-- `_note_score` (aggregate.py): (type precedence, date ordinal), higher is
better; a missing or unparsable date scores 0. -/
def _note_score (note_type note_date : PyVal) : Int × Int :=
  (NOTE_TYPE_PRECEDENCE note_type,
   match _parse_date note_date with
   | some d => toordinal d
   | none => 0)

/-- The composite ranking key of a note-record dict. -/
def noteKey (r : Dict) : Int × Int :=
  _note_score (dget r "note_type") (dget r "note_date")

/-- `a` may be ranked at or before `b`: Python's `sorted(key=..., reverse=True)`
is a stable sort, which is exactly insertion sort by this total preorder
(strictly greater key, or equal-first-component and at-least-as-great second). -/
def noteKeyGE (a b : Dict) : Prop :=
  (noteKey b).1 < (noteKey a).1 ∨
    ((noteKey a).1 = (noteKey b).1 ∧ (noteKey b).2 ≤ (noteKey a).2)

instance : DecidableRel noteKeyGE := fun a b => by
  unfold noteKeyGE; infer_instance

instance : IsTotal Dict noteKeyGE := by
  constructor
  intro a b
  unfold noteKeyGE
  omega

instance : IsTrans Dict noteKeyGE := by
  constructor
  intro a b c hab hbc
  unfold noteKeyGE at *
  omega

/-- `_confidence_bucket` (aggregate.py). -/
def _confidence_bucket (note_type : PyVal) : String :=
  if pyTruthy note_type = false then "unknown"
  else
    let nt := pyLower (pyStr note_type)
    if strContains nt "addendum" then "addendum"
    else if strContains nt "path" then "pathology"
    else if strContains nt "oncology" || strContains nt "consult" then "consult"
    else if strContains nt "radio" then "radiology"
    else "unknown"

/-- `_norm_val` (aggregate.py): canonical string for evidence matching;
`None` ↦ `""`, an integral float ↦ the integer's decimal string, anything
else ↦ `str(v).strip()`. -/
def _norm_val (v : PyVal) : String :=
  match v with
  | .vnone => ""
  | .vfloatInt n => toString n
  | .vfloatOther rep => pyStrip rep
  | .vstr s => pyStrip s
  | .vint n => pyStrip (toString n)

/-- An evidence row as `_evidence_support` consumes it: the attribute reads
`getattr(e, ..., None)` are modelled by `PyVal` fields (`vnone` for a missing
or `None` attribute); `entity` is the legacy alias of `field`; `stop` stands
for the source's `end` offset. -/
structure Evidence where
  patient_id : PyVal
  note_id : PyVal
  note_date : PyVal
  note_type : PyVal
  field : PyVal
  entity : PyVal
  value : PyVal
  start : Nat
  stop : Nat
  snippet : String
  label : String
  confidence : Rat
  is_negated : Bool
  is_uncertain : Bool
deriving DecidableEq, Repr

/-- The loop of `_evidence_support`, with `any_support` accumulated and the
early `break` once clean support is found. -/
def _evidence_support_go (patient_id : PyVal) (field : String) (target_val : String) :
    List Evidence → Bool → Bool × Bool
  | [], any_support => (false, any_support)
  | e :: rest, any_support =>
    if pyEq e.patient_id patient_id = false then
      _evidence_support_go patient_id field target_val rest any_support
    else if pyEq (pyOr e.field e.entity) (.vstr field) = false then
      _evidence_support_go patient_id field target_val rest any_support
    else if _norm_val e.value ≠ target_val then
      _evidence_support_go patient_id field target_val rest any_support
    else if e.is_negated = false ∧ e.is_uncertain = false then (true, true)
    else _evidence_support_go patient_id field target_val rest true

/-- `_evidence_support` (aggregate.py): `(has_clean_support, has_any_support)`
for the given patient, field and canonicalized value. -/
def _evidence_support (evidence_rows : List Evidence) (patient_id : PyVal)
    (field : String) (value : PyVal) : Bool × Bool :=
  _evidence_support_go patient_id field (_norm_val value) evidence_rows false

/-- `_compute_her2_final` (aggregate.py): the aggregation-time HER2
reconciliation over the already-selected dict values. -/
def _compute_her2_final (ihc_score fish : PyVal) : Option String × Option String :=
  if pyTruthy fish then
    let f := pyLower (pyStrip (pyStr fish))
    if strContains f "ampl" ∧ strContains f "not" = false then (some "Positive", some "fish")
    else if strContains f "not" ∧ strContains f "ampl" then (some "Negative", some "fish")
    else if strContains f "neg" then (some "Negative", some "fish")
    else if strContains f "pos" then (some "Positive", some "fish")
    else (some "Unknown", some "fish")
  else if pyTruthy ihc_score then
    let s := pyLower (pyStrip (pyStr ihc_score))
    if strContains s "3" ∧ strContains s "+" then (some "Positive", some "ihc")
    else if strStartsWith s "3" then (some "Positive", some "ihc")
    else if strStartsWith s "2" ∧ strContains s "+" then (some "Equivocal", some "ihc")
    else if strStartsWith s "1" ∧ strContains s "+" then (some "Negative", some "ihc")
    else if strStartsWith s "0" then (some "Negative", some "ihc")
    else if s = "3" then (some "Positive", some "ihc")
    else if s = "2" then (some "Equivocal", some "ihc")
    else if s = "1" ∨ s = "0" then (some "Negative", some "ihc")
    else (some "Unknown", some "ihc")
  else (none, none)

/-- The v1 base fields picked directly from notes (aggregate.py). -/
def base_fields : List String :=
  ["er_status", "pr_status",
   "her2_ihc_score", "her2_fish",
   "ki67_percent", "histology", "grade",
   "stage_clinical", "stage_path",
   "er_percent", "pr_percent"]

/-- The skip test of both selection passes: `v is None or v == ""`. -/
def isEmptyVal (v : PyVal) : Bool := v == .vnone || pyEq v (.vstr "")

/-- Pass 1 of field selection: first ranked note whose non-empty value has
clean evidence support. -/
def firstClean (evidence_rows : List Evidence) (patient_id : PyVal) (f : String) :
    List Dict → Option (PyVal × Dict)
  | [] => none
  | r :: rest =>
    let v := dget r f
    if isEmptyVal v then firstClean evidence_rows patient_id f rest
    else if (_evidence_support evidence_rows patient_id f v).1 then some (v, r)
    else firstClean evidence_rows patient_id f rest

/-- Pass 2 of field selection: first ranked note with a non-empty value,
regardless of evidence. -/
def firstNonEmpty (f : String) : List Dict → Option (PyVal × Dict)
  | [] => none
  | r :: rest =>
    let v := dget r f
    if isEmptyVal v then firstNonEmpty f rest
    else some (v, r)

/-- The two-pass selection for one base field (`chosen`, `chosen_row`). -/
def pickSel (evidence_rows : List Evidence) (patient_id : PyVal) (ranked : List Dict)
    (f : String) : Option (PyVal × Dict) :=
  match firstClean evidence_rows patient_id f ranked with
  | some vr => some vr
  | none => firstNonEmpty f ranked

/-- The body of the base-field loop of `aggregate_patient`: record the chosen
value, its source-note columns, and the field's confidence bucket. -/
def processField (evidence_rows : List Evidence) (patient_id : PyVal)
    (ranked : List Dict) (out : Dict) (f : String) : Dict :=
  match pickSel evidence_rows patient_id ranked f with
  | none => out
  | some (chosen, chosen_row) =>
    let out := dset out f chosen
    let out := dset out (f ++ "__source_note_id") (dget chosen_row "note_id")
    let out := dset out (f ++ "__source_note_type") (dget chosen_row "note_type")
    let out := dset out (f ++ "__source_note_date") (dget chosen_row "note_date")
    let bucket := _confidence_bucket (dget chosen_row "note_type")
    if f = "er_status" then dset out "er_confidence" (.vstr bucket)
    else if f = "er_percent" then
      dset out "er_confidence" (pyOr (dget out "er_confidence") (.vstr bucket))
    else if f = "pr_status" then dset out "pr_confidence" (.vstr bucket)
    else if f = "pr_percent" then
      dset out "pr_confidence" (pyOr (dget out "pr_confidence") (.vstr bucket))
    else if f = "ki67_percent" then dset out "ki67_confidence" (.vstr bucket)
    else if f = "histology" then dset out "histology_confidence" (.vstr bucket)
    else out

/-- The initial `out` dict of `aggregate_patient`: patient id, every v1
column set to `None`, and the three source columns of every base field. -/
def init_out (patient_id : PyVal) : Dict :=
  let out : Dict := [("patient_id", patient_id)]
  let out := PHENOTYPE_COLUMNS_V1.foldl
    (fun o col => if col = "patient_id" then o else dset o col .vnone) out
  base_fields.foldl
    (fun o f =>
      dset (dset (dset o (f ++ "__source_note_id") .vnone)
        (f ++ "__source_note_type") .vnone) (f ++ "__source_note_date") .vnone) out

/-- The final HER2 step of `aggregate_patient`: derive
`her2_final_status`/`her2_confidence` from the already-selected values and
write each component when it is not `None`. -/
def writeHer2 (out : Dict) : Dict :=
  let hf := _compute_her2_final (dget out "her2_ihc_score") (dget out "her2_fish")
  let out1 := match hf.1 with
    | some s => dset out "her2_final_status" (.vstr s)
    | none => out
  match hf.2 with
  | some s => dset out1 "her2_confidence" (.vstr s)
  | none => out1

/-- `aggregate_patient` (aggregate.py): empty input or a falsy patient id in
the first record yields an empty dict; otherwise rank notes by
`(type precedence, date)` descending (a stable sort, realized by insertion
sort on `noteKeyGE`), pick every base field by the two-pass selection, and
derive the final HER2 columns. -/
def aggregate_patient (note_rows : List Dict) (evidence_rows : List Evidence) : Dict :=
  match note_rows with
  | [] => []
  | first :: _ =>
    let patient_id := dget first "patient_id"
    if pyTruthy patient_id = false then []
    else
      let ranked := List.insertionSort noteKeyGE note_rows
      let out := base_fields.foldl (processField evidence_rows patient_id ranked)
        (init_out patient_id)
      writeHer2 out

/-- One evidence row matches the (patient, field, canonical value) query. -/
def evMatch (patient_id : PyVal) (field : String) (target_val : String) (e : Evidence) : Bool :=
  pyEq e.patient_id patient_id && pyEq (pyOr e.field e.entity) (.vstr field) &&
    (_norm_val e.value == target_val)

/-- Which output keys one iteration of the base-field loop can write:
the field itself, its three source columns, and the confidence slots. -/
def writesKey (g m : String) : Bool :=
  m == g || m == g ++ "__source_note_id" || m == g ++ "__source_note_type" ||
  m == g ++ "__source_note_date" || m == "er_confidence" || m == "pr_confidence" ||
  m == "ki67_confidence" || m == "histology_confidence"

/-- Scenario fixture: a Radiology note record carrying an ER status. -/
def radioRow (pid nid : String) (d v : PyVal) : Dict :=
  [("patient_id", .vstr pid), ("note_id", .vstr nid), ("note_date", d),
   ("note_type", .vstr "Radiology"), ("er_status", v)]

/-- Scenario fixture: a Pathology note record carrying an ER status. -/
def pathRow (pid nid : String) (d v : PyVal) : Dict :=
  [("patient_id", .vstr pid), ("note_id", .vstr nid), ("note_date", d),
   ("note_type", .vstr "Pathology"), ("er_status", v)]

-- ---------------------------------------------------------------------
-- phenotyper/preprocess.py
-- ---------------------------------------------------------------------

/-- The combined effect of `replace("\r\n", "\n")` then `replace("\r", "\n")`. -/
def replaceCRLF : List Char → List Char
  | [] => []
  | '\r' :: '\n' :: rest => '\n' :: replaceCRLF rest
  | '\r' :: rest => '\n' :: replaceCRLF rest
  | c :: rest => c :: replaceCRLF rest

/-- `re.sub(r"[\t ]{2,}", " ", ...)`: each run of two or more spaces/tabs
becomes one space; single ones stay. -/
def collapseSpaceRuns : List Char → List Char
  | [] => []
  | c :: cs =>
    if c = '\t' ∨ c = ' ' then
      (if (cs.takeWhile (fun d => d = '\t' ∨ d = ' ')).length + 1 ≥ 2 then [' ']
       else [c]) ++ collapseSpaceRuns (cs.dropWhile (fun d => d = '\t' ∨ d = ' '))
    else c :: collapseSpaceRuns cs
termination_by l => l.length
decreasing_by
  all_goals simp only [List.length_cons]
  · exact Nat.lt_succ_of_le (List.dropWhile_sublist _).length_le
  · exact Nat.lt_succ_self _

/-- `re.sub(r"\n{3,}", "\n\n", ...)`: runs of three or more newlines become
two. -/
def collapseNewlineRuns : List Char → List Char
  | [] => []
  | c :: cs =>
    if c = '\n' then
      (if (cs.takeWhile (fun d => d = '\n')).length + 1 ≥ 3 then ['\n', '\n']
       else c :: cs.takeWhile (fun d => d = '\n')) ++
        collapseNewlineRuns (cs.dropWhile (fun d => d = '\n'))
    else c :: collapseNewlineRuns cs
termination_by l => l.length
decreasing_by
  all_goals simp only [List.length_cons]
  · exact Nat.lt_succ_of_le (List.dropWhile_sublist _).length_le
  · exact Nat.lt_succ_self _

/-- `clean_text` (preprocess.py). -/
def clean_text (text : String) : String :=
  if text = "" then ""
  else pyStrip (String.mk (collapseNewlineRuns (collapseSpaceRuns (replaceCRLF text.data))))

-- ---------------------------------------------------------------------
-- phenotyper/extract.py: the regex helpers
-- ---------------------------------------------------------------------

/-- Greedy `(\d{1,3})\s*%` attempt: the digit count backs off from `dl`. -/
def pctDigits (p : List Char) : Nat → Option Nat
  | 0 => none
  | dl + 1 =>
    let ds := p.take (dl + 1)
    if ds.length = dl + 1 ∧ ds.all Char.isDigit ∧
        ((p.drop (dl + 1)).dropWhile Char.isWhitespace).head? = some '%' then
      some (digitsToNat ds)
    else pctDigits p dl

/-- Greedy `[^%\n]{0,60}\b` gap before the digits, backing off from `g`;
a zero gap is impossible because the keyword ends in a word character. -/
def pctTryGap (rest : List Char) : Nat → Option Nat
  | 0 => none
  | g + 1 =>
    let ok : Bool :=
      match rest.get? g with
      | some d => !isWordChar d
      | none => false
    match (if ok then pctDigits (rest.drop (g + 1)) 3 else none) with
    | some v => some v
    | none => pctTryGap rest g

/-- One keyword alternative of `_ER_PCT`/`_PR_PCT` at the current start. -/
def tryKwPct (kw cs : List Char) : Option Nat :=
  if kw.isPrefixOf cs then
    let rest := cs.drop kw.length
    if rest.head?.elim true (fun d => !isWordChar d) then
      pctTryGap rest
        (min 60 (rest.takeWhile (fun c => !(c == '%' || c == '\n'))).length)
    else none
  else none

/-- A start-position attempt of the percent regex (long alternative first,
as the regex alternation orders them). -/
def pctStep (kw1 kw2 : List Char) (prev : Option Char) (cs : List Char) : Option Nat :=
  if prev.elim true (fun c => !isWordChar c) then
    match tryKwPct kw1 cs with
    | some v => some v
    | none => tryKwPct kw2 cs
  else none

/-- `_find_er_percent` (extract.py): leftmost `_ER_PCT` match, accepted only
in `[0, 100]`. -/
def _find_er_percent (window : String) : Option Nat :=
  match scanText (pctStep "estrogen receptor".data "er".data) none
      (pyLower window).data with
  | none => none
  | some v => if v ≤ 100 then some v else none

/-- `_find_pr_percent` (extract.py). -/
def _find_pr_percent (window : String) : Option Nat :=
  match scanText (pctStep "progesterone receptor".data "pr".data) none
      (pyLower window).data with
  | none => none
  | some v => if v ≤ 100 then some v else none

/-- The `\b(?:w1|w2|sym)\b` tail of the status-fallback regexes, where
`prevc` is the character immediately before the current position (`sym` is
the non-word `+`/`-` alternative, whose boundaries invert). -/
def statusAltAt (w1 w2 : List Char) (sym : Char) (prevc : Char) (p : List Char) : Bool :=
  (w1.isPrefixOf p && !isWordChar prevc &&
    ((p.drop w1.length).head?.elim true (fun d => !isWordChar d))) ||
  (w2.isPrefixOf p && !isWordChar prevc &&
    ((p.drop w2.length).head?.elim true (fun d => !isWordChar d))) ||
  ((p.head? == some sym) && isWordChar prevc &&
    ((p.drop 1).head?.elim false (fun d => isWordChar d)))

/-- One keyword alternative of a status-fallback regex: keyword, trailing
word boundary, a `[^a-z0-9]{0,10}` gap, then the status alternative. -/
def fallbackTryKw (kw w1 w2 : List Char) (sym : Char) (cs : List Char) : Bool :=
  kw.isPrefixOf cs &&
    (let rest := cs.drop kw.length
     (rest.head?.elim true (fun d => !isWordChar d)) &&
       (let gmax := min 10 (rest.takeWhile (fun c => !(c.isLower || c.isDigit))).length
        (List.range (gmax + 1)).any (fun g =>
          if g = 0 then statusAltAt w1 w2 sym (kw.getLast?.getD ' ') rest
          else
            match rest.get? (g - 1) with
            | some d => statusAltAt w1 w2 sym d (rest.drop g)
            | none => false)))

/-- A start-position attempt of a status-fallback regex. -/
def fallbackStep (kw1 kw2 w1 w2 : List Char) (sym : Char) (prev : Option Char)
    (cs : List Char) : Option Unit :=
  if prev.elim true (fun c => !isWordChar c) then
    if fallbackTryKw kw1 w1 w2 sym cs || fallbackTryKw kw2 w1 w2 sym cs then some ()
    else none
  else none

/-- `_ER_POS_FALLBACK.search(text) is not None`. -/
def er_pos_fallback (text : String) : Bool :=
  (scanText (fallbackStep "estrogen receptor".data "er".data "positive".data
    "pos".data '+') none (pyLower text).data).isSome

/-- `_ER_NEG_FALLBACK.search(text) is not None`. -/
def er_neg_fallback (text : String) : Bool :=
  (scanText (fallbackStep "estrogen receptor".data "er".data "negative".data
    "neg".data '-') none (pyLower text).data).isSome

/-- `_PR_POS_FALLBACK.search(text) is not None`. -/
def pr_pos_fallback (text : String) : Bool :=
  (scanText (fallbackStep "progesterone receptor".data "pr".data "positive".data
    "pos".data '+') none (pyLower text).data).isSome

/-- `_PR_NEG_FALLBACK.search(text) is not None`. -/
def pr_neg_fallback (text : String) : Bool :=
  (scanText (fallbackStep "progesterone receptor".data "pr".data "negative".data
    "neg".data '-') none (pyLower text).data).isSome

-- ---------------------------------------------------------------------
-- phenotyper/extract.py: the orchestrator
-- ---------------------------------------------------------------------

/-- A candidate mention as the extraction loop consumes it: spaCy entity
label and span, character offsets, enclosing-sentence text, and the ConText
negation/uncertainty flags read by `_get_context_flags`. -/
structure Mention where
  label : String
  text : String
  start_char : Nat
  end_char : Nat
  sent : String
  is_negated : Bool
  is_uncertain : Bool
deriving DecidableEq, Repr

/-- The mutable state of `extract_note`: the phenotype dict, the three
intermediate HER2 fields, and the evidence accumulator. -/
structure ExtractState where
  phenos : Dict
  her2_explicit : Option String
  her2_ihc : Option String
  her2_fish : Option String
  evidence : List Evidence
deriving Repr

/-- `add_ev` (extract.py): append one Evidence row with a ±80-character
snippet; the dataclass constructor always accepts `field`, and its `entity`
property mirrors it. -/
def add_ev (text : String) (patient_id note_id : String)
    (note_date note_type : Option String) (st : ExtractState)
    (field value : String) (ent : Mention) (label : String) (conf : Rat) :
    ExtractState :=
  let snippet := String.mk
    ((text.data.drop (ent.start_char - 80)).take
      (min (ent.end_char + 80) text.length - (ent.start_char - 80)))
  { st with evidence := st.evidence ++ [{
      patient_id := .vstr patient_id, note_id := .vstr note_id,
      note_date := optToVal note_date, note_type := optToVal note_type,
      field := .vstr field, entity := .vstr field,
      value := .vstr value, start := ent.start_char, stop := ent.end_char,
      snippet := snippet, label := label, confidence := conf,
      is_negated := ent.is_negated, is_uncertain := ent.is_uncertain }] }

/-- The body of the entity loop of `extract_note`: dispatch one mention by
its label. -/
def processEnt (text : String) (pid nid : String) (nd nt : Option String)
    (st : ExtractState) (ent : Mention) : ExtractState :=
  let label := ent.label
  let span := ent.text
  if label = "ER_POS" then
    let st1 := { st with
      phenos := dset st.phenos "er_status" (optToVal (normalize_status (some "Positive"))) }
    let st2 := add_ev text pid nid nd nt st1 "er_status" "Positive" ent label 0.85
    match _find_er_percent ent.sent with
    | some pct =>
      let st3 := { st2 with phenos := dset st2.phenos "er_percent" (.vint pct) }
      add_ev text pid nid nd nt st3 "er_percent" (toString pct) ent label 0.70
    | none => st2
  else if label = "ER_NEG" then
    let st1 := { st with
      phenos := dset st.phenos "er_status" (optToVal (normalize_status (some "Negative"))) }
    let st2 := add_ev text pid nid nd nt st1 "er_status" "Negative" ent label 0.85
    match _find_er_percent ent.sent with
    | some pct =>
      let st3 := { st2 with phenos := dset st2.phenos "er_percent" (.vint pct) }
      add_ev text pid nid nd nt st3 "er_percent" (toString pct) ent label 0.70
    | none => st2
  else if label = "PR_POS" then
    let st1 := { st with
      phenos := dset st.phenos "pr_status" (optToVal (normalize_status (some "Positive"))) }
    let st2 := add_ev text pid nid nd nt st1 "pr_status" "Positive" ent label 0.85
    match _find_pr_percent ent.sent with
    | some pct =>
      let st3 := { st2 with phenos := dset st2.phenos "pr_percent" (.vint pct) }
      add_ev text pid nid nd nt st3 "pr_percent" (toString pct) ent label 0.70
    | none => st2
  else if label = "PR_NEG" then
    let st1 := { st with
      phenos := dset st.phenos "pr_status" (optToVal (normalize_status (some "Negative"))) }
    let st2 := add_ev text pid nid nd nt st1 "pr_status" "Negative" ent label 0.85
    match _find_pr_percent ent.sent with
    | some pct =>
      let st3 := { st2 with phenos := dset st2.phenos "pr_percent" (.vint pct) }
      add_ev text pid nid nd nt st3 "pr_percent" (toString pct) ent label 0.70
    | none => st2
  else if label = "HER2_IHC" then
    let v := pyStrip span
    let st1 := { st with her2_ihc := some v }
    add_ev text pid nid nd nt st1 "her2_ihc_score" v ent label 0.80
  else if label = "HER2_POS" then
    let st1 := { st with her2_explicit := some "Positive" }
    add_ev text pid nid nd nt st1 "her2_status" "Positive" ent label 0.75
  else if label = "HER2_NEG" then
    let st1 := { st with her2_explicit := some "Negative" }
    add_ev text pid nid nd nt st1 "her2_status" "Negative" ent label 0.75
  else if label = "HER2_FISH_POS" then
    let st1 := { st with her2_fish := some "Amplified" }
    add_ev text pid nid nd nt st1 "her2_fish" "Amplified" ent label 0.85
  else if label = "HER2_FISH_NEG" then
    let st1 := { st with her2_fish := some "Not amplified" }
    add_ev text pid nid nd nt st1 "her2_fish" "Not amplified" ent label 0.85
  else if label = "KI67" then
    match normalize_percent span with
    | some val =>
      let st1 := { st with phenos := dset st.phenos "ki67_percent" (.vint val) }
      add_ev text pid nid nd nt st1 "ki67_percent" (toString val) ent label 0.80
    | none => st
  else if strStartsWith label "HISTOLOGY_" then
    match normalize_histology (if label ≠ "HISTOLOGY_TEXT" then span else ent.sent) with
    | some hist =>
      let st1 := { st with phenos := dset st.phenos "histology" (.vstr hist) }
      add_ev text pid nid nd nt st1 "histology" hist ent label 0.75
    | none => st
  else if label = "GRADE" then
    match normalize_grade ent.sent with
    | some g =>
      let st1 := { st with phenos := dset st.phenos "grade" (.vstr g) }
      add_ev text pid nid nd nt st1 "grade" g ent label 0.75
    | none => st
  else if label = "STAGE_PATH" ∨ label = "STAGE_CLIN" ∨ label = "STAGE_GENERIC" then
    match normalize_stage (if label ≠ "STAGE_GENERIC" then ent.text else ent.sent) with
    | some stg =>
      if label = "STAGE_PATH" then
        let st1 := { st with phenos := dset st.phenos "stage_path" (.vstr stg) }
        add_ev text pid nid nd nt st1 "stage_path" stg ent label 0.75
      else if label = "STAGE_CLIN" then
        let st1 := { st with phenos := dset st.phenos "stage_clinical" (.vstr stg) }
        add_ev text pid nid nd nt st1 "stage_clinical" stg ent label 0.75
      else
        if pyTruthy (dget st.phenos "stage_path") = false then
          let st1 := { st with phenos := dset st.phenos "stage_path" (.vstr stg) }
          add_ev text pid nid nd nt st1 "stage_path" stg ent label 0.60
        else if pyTruthy (dget st.phenos "stage_clinical") = false then
          let st1 := { st with phenos := dset st.phenos "stage_clinical" (.vstr stg) }
          add_ev text pid nid nd nt st1 "stage_clinical" stg ent label 0.60
        else st
    | none => st
  else st

/-- The ER-status regex fallback of `extract_note` (fires only when the
mention loop left the field empty; emits no Evidence). -/
def fb_er (text : String) (phenos : Dict) : Dict :=
  if dget phenos "er_status" = .vnone then
    if er_pos_fallback text then
      dset phenos "er_status" (optToVal (normalize_status (some "Positive")))
    else if er_neg_fallback text then
      dset phenos "er_status" (optToVal (normalize_status (some "Negative")))
    else phenos
  else phenos

/-- The PR-status regex fallback of `extract_note`. -/
def fb_pr (text : String) (phenos : Dict) : Dict :=
  if dget phenos "pr_status" = .vnone then
    if pr_pos_fallback text then
      dset phenos "pr_status" (optToVal (normalize_status (some "Positive")))
    else if pr_neg_fallback text then
      dset phenos "pr_status" (optToVal (normalize_status (some "Negative")))
    else phenos
  else phenos

/-- The ER-percent whole-note fallback of `extract_note`. -/
def fb_er_pct (text : String) (phenos : Dict) : Dict :=
  if dget phenos "er_percent" = .vnone then
    match _find_er_percent text with
    | some p => dset phenos "er_percent" (.vint p)
    | none => phenos
  else phenos

/-- The PR-percent whole-note fallback of `extract_note`. -/
def fb_pr_pct (text : String) (phenos : Dict) : Dict :=
  if dget phenos "pr_percent" = .vnone then
    match _find_pr_percent text with
    | some p => dset phenos "pr_percent" (.vint p)
    | none => phenos
  else phenos

/-- The regex safety net of `extract_note`, in source order. -/
def apply_fallbacks (text : String) (phenos : Dict) : Dict :=
  fb_pr_pct text (fb_er_pct text (fb_pr text (fb_er text phenos)))

/-- The final HER2 reconciliation of `extract_note`. -/
def apply_her2 (her2_ihc her2_fish her2_explicit : Option String) (phenos : Dict) :
    Dict :=
  let r := reconcile_her2 her2_ihc her2_fish her2_explicit
  dset (dset (dset phenos "her2_status" (optToVal (normalize_status r.1)))
    "her2_ihc_score" (optToVal r.2.1)) "her2_fish" (optToVal r.2.2)

/-- `extract_note` (extract.py), with the recognizer's ordered mention
sequence supplied as input (the spaCy pipeline itself is the external
collaborator producing `doc.ents`). -/
def extract_note (note_text : String) (patient_id note_id : String)
    (note_date note_type : Option String) (ents : List Mention) :
    Dict × List Evidence :=
  let text := clean_text note_text
  let phenos0 : Dict :=
    [("patient_id", .vstr patient_id), ("note_id", .vstr note_id),
     ("note_date", optToVal note_date), ("note_type", optToVal note_type),
     ("er_status", .vnone), ("er_percent", .vnone),
     ("pr_status", .vnone), ("pr_percent", .vnone),
     ("her2_status", .vnone), ("her2_ihc_score", .vnone), ("her2_fish", .vnone),
     ("ki67_percent", .vnone), ("histology", .vnone), ("grade", .vnone),
     ("stage_clinical", .vnone), ("stage_path", .vnone)]
  let st := ents.foldl (processEnt text patient_id note_id note_date note_type)
    ⟨phenos0, none, none, none, []⟩
  (apply_her2 st.her2_ihc st.her2_fish st.her2_explicit
    (apply_fallbacks text st.phenos), st.evidence)

-- ---------------------------------------------------------------------
-- Dictionary lemmas
-- ---------------------------------------------------------------------

theorem dget_nil (m : String) : dget [] m = .vnone := rfl

theorem dget_cons (p : String × PyVal) (d : Dict) (m : String) :
    dget (p :: d) m = if p.1 = m then p.2 else dget d m := rfl

/-- The master dict-update law: reading after writing. -/
theorem dget_dset (d : Dict) (k m : String) (v : PyVal) :
    dget (dset d k v) m = if m = k then v else dget d m := by
  induction d with
  | nil =>
    show dget [(k, v)] m = if m = k then v else dget [] m
    rw [dget_cons]
    by_cases h : m = k
    · rw [if_pos h.symm, if_pos h]
    · rw [if_neg (fun hh : k = m => h hh.symm), if_neg h]
  | cons p rest ih =>
    show dget (if p.1 = k then (k, v) :: rest else p :: dset rest k v) m = _
    by_cases hpk : p.1 = k
    · rw [if_pos hpk, dget_cons, dget_cons]
      by_cases hmk : m = k
      · rw [if_pos hmk.symm, if_pos hmk]
      · rw [if_neg (fun hh : k = m => hmk hh.symm), if_neg hmk,
          if_neg (fun hh : p.1 = m => hmk (hh.symm.trans hpk))]
    · rw [if_neg hpk, dget_cons, dget_cons, ih]
      by_cases hpm : p.1 = m
      · by_cases hmk : m = k
        · exact absurd (hpm.trans hmk) hpk
        · rw [if_pos hpm, if_neg hmk, if_pos hpm]
      · by_cases hmk : m = k
        · rw [if_neg hpm, if_pos hmk, if_pos hmk]
        · rw [if_neg hpm, if_neg hmk, if_neg hmk, if_neg hpm]

-- ---------------------------------------------------------------------
-- Evidence-support characterization
-- ---------------------------------------------------------------------

theorem es_go_any (pid : PyVal) (f tv : String) (rows : List Evidence) :
    ∀ acc : Bool,
      (_evidence_support_go pid f tv rows acc).2 = (acc || rows.any (evMatch pid f tv)) := by
  induction rows with
  | nil => intro acc; simp [_evidence_support_go]
  | cons e rest ih =>
    intro acc
    rw [List.any_cons]
    unfold _evidence_support_go
    by_cases h1 : pyEq e.patient_id pid = false
    · rw [if_pos h1, ih]
      have hm : evMatch pid f tv e = false := by simp [evMatch, h1]
      rw [hm, Bool.false_or]
    · rw [if_neg h1]
      rw [Bool.not_eq_false] at h1
      by_cases h2 : pyEq (pyOr e.field e.entity) (.vstr f) = false
      · rw [if_pos h2, ih]
        have hm : evMatch pid f tv e = false := by simp [evMatch, h2]
        rw [hm, Bool.false_or]
      · rw [if_neg h2]
        rw [Bool.not_eq_false] at h2
        by_cases h3 : _norm_val e.value ≠ tv
        · rw [if_pos h3, ih]
          have hm : evMatch pid f tv e = false := by
            simp [evMatch, beq_eq_false_iff_ne.mpr h3]
          rw [hm, Bool.false_or]
        · rw [if_neg h3]
          rw [not_not] at h3
          have hm : evMatch pid f tv e = true := by simp [evMatch, h1, h2, h3]
          by_cases h4 : e.is_negated = false ∧ e.is_uncertain = false
          · rw [if_pos h4, hm]
            simp
          · rw [if_neg h4, ih, hm]
            simp

theorem es_go_clean (pid : PyVal) (f tv : String) (rows : List Evidence) :
    ∀ acc : Bool,
      (_evidence_support_go pid f tv rows acc).1 =
        rows.any (fun e => evMatch pid f tv e && !e.is_negated && !e.is_uncertain) := by
  induction rows with
  | nil => intro acc; simp [_evidence_support_go]
  | cons e rest ih =>
    intro acc
    rw [List.any_cons]
    unfold _evidence_support_go
    by_cases h1 : pyEq e.patient_id pid = false
    · rw [if_pos h1, ih]
      have hm : evMatch pid f tv e = false := by simp [evMatch, h1]
      rw [hm]
      simp
    · rw [if_neg h1]
      rw [Bool.not_eq_false] at h1
      by_cases h2 : pyEq (pyOr e.field e.entity) (.vstr f) = false
      · rw [if_pos h2, ih]
        have hm : evMatch pid f tv e = false := by simp [evMatch, h2]
        rw [hm]
        simp
      · rw [if_neg h2]
        rw [Bool.not_eq_false] at h2
        by_cases h3 : _norm_val e.value ≠ tv
        · rw [if_pos h3, ih]
          have hm : evMatch pid f tv e = false := by
            simp [evMatch, beq_eq_false_iff_ne.mpr h3]
          rw [hm]
          simp
        · rw [if_neg h3]
          rw [not_not] at h3
          have hm : evMatch pid f tv e = true := by simp [evMatch, h1, h2, h3]
          by_cases h4 : e.is_negated = false ∧ e.is_uncertain = false
          · rw [if_pos h4, hm, h4.1, h4.2]
            simp
          · rw [if_neg h4, ih]
            have hq : (evMatch pid f tv e && !e.is_negated && !e.is_uncertain) = false := by
              cases hneg : e.is_negated <;> cases hunc : e.is_uncertain <;> simp_all
            rw [hq, Bool.false_or]

/-- Clean support holds iff some row matches with both context flags clear. -/
theorem evidence_support_clean_iff (rows : List Evidence) (pid : PyVal) (f : String) (v : PyVal) :
    (_evidence_support rows pid f v).1 = true ↔
      ∃ e ∈ rows, pyEq e.patient_id pid = true ∧
        pyEq (pyOr e.field e.entity) (.vstr f) = true ∧
        _norm_val e.value = _norm_val v ∧
        e.is_negated = false ∧ e.is_uncertain = false := by
  unfold _evidence_support
  rw [es_go_clean]
  simp only [List.any_eq_true, evMatch, Bool.and_eq_true, Bool.not_eq_true', beq_iff_eq]
  exact exists_congr fun e => by constructor <;> intro h <;> tauto

/-- Any support holds iff some row matches, regardless of flags. -/
theorem evidence_support_any_iff (rows : List Evidence) (pid : PyVal) (f : String) (v : PyVal) :
    (_evidence_support rows pid f v).2 = true ↔
      ∃ e ∈ rows, pyEq e.patient_id pid = true ∧
        pyEq (pyOr e.field e.entity) (.vstr f) = true ∧
        _norm_val e.value = _norm_val v := by
  unfold _evidence_support
  rw [es_go_any]
  simp only [Bool.false_or, List.any_eq_true, evMatch, Bool.and_eq_true, beq_iff_eq]
  exact exists_congr fun e => by constructor <;> intro h <;> tauto

-- ---------------------------------------------------------------------
-- HER2 reconciler lemmas
-- ---------------------------------------------------------------------

theorem fishKeyword_values (s t : String) (h : fishKeyword s = some t) :
    t = "Negative" ∨ t = "Positive" := by
  unfold fishKeyword at h
  split_ifs at h <;> simp_all

theorem fish_to_status_values (f : Option String) (s : String)
    (h : fish_to_status f = some s) : s = "Negative" ∨ s = "Positive" := by
  cases f with
  | none => simp [fish_to_status] at h
  | some f0 =>
    simp only [fish_to_status] at h
    split_ifs at h with h0
    exact fishKeyword_values _ _ h

theorem ihcTable_values (s t : String) (h : ihcTable s = some t) :
    t = "Positive" ∨ t = "Equivocal" ∨ t = "Negative" := by
  unfold ihcTable at h
  split_ifs at h <;> simp_all

theorem ihc_to_status_values (i : Option String) (s : String)
    (h : ihc_to_status i = some s) :
    s = "Positive" ∨ s = "Equivocal" ∨ s = "Negative" := by
  cases i with
  | none => simp [ihc_to_status] at h
  | some i0 =>
    simp only [ihc_to_status] at h
    split_ifs at h with h0
    exact ihcTable_values _ _ h

/-- Claim C1: HER2 reconciliation precedence in `her2_final_status` is strict
and short-circuiting — a determinate FISH status (by the keyword rules, the
negative keywords checked before the positive ones and the `positive/pos`,
`negative/neg` fallbacks last) wins with source `fish` regardless of IHC and
explicit text; otherwise a table-mapped IHC score wins with source `ihc`;
otherwise explicit text normalizing to Positive/Negative/Equivocal wins with
source `explicit`; otherwise the result is `(none, none)`.  In particular
`ihc="3+", fish="not amplified"` gives `(Negative, fish)` and `ihc="3+"`
with absent FISH and explicit `"Negative"` gives `(Positive, ihc)`. -/
theorem C1_her2_precedence :
    (∀ (i f e : Option String) (s : String), fish_to_status f = some s →
      her2_final_status i f e = (some s, some "fish")) ∧
    (∀ (i f e : Option String) (s : String), fish_to_status f = none →
      ihc_to_status i = some s →
      her2_final_status i f e = (some s, some "ihc")) ∧
    (∀ (i f e : Option String) (s : String), fish_to_status f = none →
      ihc_to_status i = none → normalize_status e = some s →
      (s = "Positive" ∨ s = "Negative" ∨ s = "Equivocal") →
      her2_final_status i f e = (some s, some "explicit")) ∧
    (∀ (i f e : Option String), fish_to_status f = none →
      ihc_to_status i = none →
      (normalize_status e = none ∨ normalize_status e = some "Unknown") →
      her2_final_status i f e = (none, none)) ∧
    (∀ f0 : String,
      (strContains (pyLower (pyStrip f0)) "not amplified" = true ∨
       strContains (pyLower (pyStrip f0)) "nonampl" = true ∨
       strContains (pyLower (pyStrip f0)) "non-ampl" = true ∨
       strContains (pyLower (pyStrip f0)) "no ampl" = true) →
      fish_to_status (some f0) = some "Negative") ∧
    (∀ f0 : String,
      strContains (pyLower (pyStrip f0)) "not amplified" = false →
      strContains (pyLower (pyStrip f0)) "nonampl" = false →
      strContains (pyLower (pyStrip f0)) "non-ampl" = false →
      strContains (pyLower (pyStrip f0)) "no ampl" = false →
      strContains (pyLower (pyStrip f0)) "no amplification" = false →
      (strContains (pyLower (pyStrip f0)) "amplified" = true ∨
       strContains (pyLower (pyStrip f0)) "amplification" = true) →
      fish_to_status (some f0) = some "Positive") ∧
    (∀ f0 : String,
      strContains (pyLower (pyStrip f0)) "not amplified" = false →
      strContains (pyLower (pyStrip f0)) "nonampl" = false →
      strContains (pyLower (pyStrip f0)) "non-ampl" = false →
      strContains (pyLower (pyStrip f0)) "no ampl" = false →
      strContains (pyLower (pyStrip f0)) "no amplification" = false →
      strContains (pyLower (pyStrip f0)) "amplified" = false →
      strContains (pyLower (pyStrip f0)) "amplification" = false →
      (strContains (pyLower (pyStrip f0)) "positive" = true ∨
       strContains (pyLower (pyStrip f0)) "pos" = true) →
      fish_to_status (some f0) = some "Positive") ∧
    (∀ f0 : String,
      strContains (pyLower (pyStrip f0)) "not amplified" = false →
      strContains (pyLower (pyStrip f0)) "nonampl" = false →
      strContains (pyLower (pyStrip f0)) "non-ampl" = false →
      strContains (pyLower (pyStrip f0)) "no ampl" = false →
      strContains (pyLower (pyStrip f0)) "no amplification" = false →
      strContains (pyLower (pyStrip f0)) "amplified" = false →
      strContains (pyLower (pyStrip f0)) "amplification" = false →
      strContains (pyLower (pyStrip f0)) "positive" = false →
      strContains (pyLower (pyStrip f0)) "pos" = false →
      (strContains (pyLower (pyStrip f0)) "negative" = true ∨
       strContains (pyLower (pyStrip f0)) "neg" = true) →
      fish_to_status (some f0) = some "Negative") ∧
    (ihc_to_status (some "3+") = some "Positive" ∧
     ihc_to_status (some "3") = some "Positive" ∧
     ihc_to_status (some "2+") = some "Equivocal" ∧
     ihc_to_status (some "2") = some "Equivocal" ∧
     ihc_to_status (some "1+") = some "Negative" ∧
     ihc_to_status (some "1") = some "Negative" ∧
     ihc_to_status (some "0") = some "Negative" ∧
     ihc_to_status (some "0+") = some "Negative" ∧
     ihc_to_status (some "0/1+") = some "Negative" ∧
     ihc_to_status (some "0-1+") = some "Negative" ∧
     ihc_to_status (some "0-1") = some "Negative") ∧
    her2_final_status (some "3+") (some "not amplified") none =
      (some "Negative", some "fish") ∧
    her2_final_status (some "3+") none (some "Negative") =
      (some "Positive", some "ihc") := by
  refine ⟨?_, ?_, ?_, ?_, ?_, ?_, ?_, ?_, by decide, by decide, by decide⟩
  · intro i f e s h
    rcases fish_to_status_values f s h with rfl | rfl <;>
      simp [her2_final_status, h, optTruthy]
  · intro i f e s hf hi
    rcases ihc_to_status_values i s hi with rfl | rfl | rfl <;>
      simp [her2_final_status, hf, hi, optTruthy]
  · intro i f e s hf hi he hs
    rcases hs with rfl | rfl | rfl <;>
      simp [her2_final_status, hf, hi, he, optTruthy]
  · intro i f e hf hi he
    rcases he with he | he <;>
      simp [her2_final_status, hf, hi, he, optTruthy]
  · intro f0 h
    have hne : f0 ≠ "" := by
      rintro rfl
      rcases h with h | h | h | h <;>
        simp [strContains, listIsInfix, pyLower, pyStrip] at h
    rcases h with h | h | h | h
    · simp [fish_to_status, fishKeyword, hne, h]
    · simp [fish_to_status, fishKeyword, hne, h]
    · simp [fish_to_status, fishKeyword, hne, h]
    · simp only [fish_to_status, if_neg hne]
      by_cases c1 : strContains (pyLower (pyStrip f0)) "not amplified" = true ∨
          strContains (pyLower (pyStrip f0)) "nonampl" = true ∨
          strContains (pyLower (pyStrip f0)) "non-ampl" = true
      · simp [fishKeyword, c1]
      · simp [fishKeyword, c1, h]
  · intro f0 h1 h2 h3 h4 h5 h
    have hne : f0 ≠ "" := by
      rintro rfl
      rcases h with h | h <;>
        simp [strContains, listIsInfix, pyLower, pyStrip] at h
    rcases h with h | h <;>
      simp [fish_to_status, fishKeyword, hne, h1, h2, h3, h4, h5, h]
  · intro f0 h1 h2 h3 h4 h5 h6 h7 h
    have hne : f0 ≠ "" := by
      rintro rfl
      rcases h with h | h <;>
        simp [strContains, listIsInfix, pyLower, pyStrip] at h
    rcases h with h | h <;>
      simp [fish_to_status, fishKeyword, hne, h1, h2, h3, h4, h5, h6, h7, h]
  · intro f0 h1 h2 h3 h4 h5 h6 h7 h8 h9 h
    have hne : f0 ≠ "" := by
      rintro rfl
      rcases h with h | h <;>
        simp [strContains, listIsInfix, pyLower, pyStrip] at h
    rcases h with h | h <;>
      simp [fish_to_status, fishKeyword, hne, h1, h2, h3, h4, h5, h6, h7, h8, h9, h]

/-- Witness for C1: each branch of the precedence applied at a concrete
input. -/
theorem C1_her2_precedence_witness :
    her2_final_status (some "3+") (some "FISH: Not Amplified.") none =
      (some "Negative", some "fish") ∧
    her2_final_status (some "2+") none (some "Positive") =
      (some "Equivocal", some "ihc") ∧
    her2_final_status none none (some "equivocal") =
      (some "Equivocal", some "explicit") ∧
    her2_final_status none none (some "pending") = (none, none) := by
  refine ⟨?_, ?_, ?_, ?_⟩
  · exact C1_her2_precedence.1 (some "3+") (some "FISH: Not Amplified.") none
      "Negative" (by decide)
  · exact C1_her2_precedence.2.1 (some "2+") none (some "Positive")
      "Equivocal" (by decide) (by decide)
  · exact C1_her2_precedence.2.2.1 none none (some "equivocal")
      "Equivocal" (by decide) (by decide) (by decide) (by tauto)
  · exact C1_her2_precedence.2.2.2.1 none none (some "pending")
      (by decide) (by decide) (Or.inr (by decide))

-- ---------------------------------------------------------------------
-- C6, C7, C9, C2
-- ---------------------------------------------------------------------

/-- Claim C6: `_evidence_support` returns clean support exactly when some
evidence entry for that patient and field has the canonicalized query value
with both `is_negated` and `is_uncertain` false, and any-support exactly when
such an entry exists regardless of flags; values are canonicalized (integral
floats collapse to the integer's decimal string, so the numeric 35.0 matches
the string "35", and strings are trimmed), and the field slot falls back to
the legacy `entity` alias via Python `or`. -/
theorem C6_evidence_support_lookup :
    (∀ (rows : List Evidence) (pid : PyVal) (f : String) (v : PyVal),
      ((_evidence_support rows pid f v).1 = true ↔
        ∃ e ∈ rows, pyEq e.patient_id pid = true ∧
          pyEq (pyOr e.field e.entity) (.vstr f) = true ∧
          _norm_val e.value = _norm_val v ∧
          e.is_negated = false ∧ e.is_uncertain = false) ∧
      ((_evidence_support rows pid f v).2 = true ↔
        ∃ e ∈ rows, pyEq e.patient_id pid = true ∧
          pyEq (pyOr e.field e.entity) (.vstr f) = true ∧
          _norm_val e.value = _norm_val v)) ∧
    _norm_val (.vfloatInt 35) = _norm_val (.vstr "35") ∧
    (∀ s : String, _norm_val (.vstr s) = pyStrip s) ∧
    (∀ e : Evidence, e.field = .vnone → pyOr e.field e.entity = e.entity) := by
  refine ⟨fun rows pid f v =>
    ⟨evidence_support_clean_iff rows pid f v, evidence_support_any_iff rows pid f v⟩,
    by decide, fun s => rfl, ?_⟩
  intro e he
  simp [pyOr, he, pyTruthy]

/-- Witness for C6: the clean-support direction applied at one concrete
evidence row whose float value matches the string query. -/
theorem C6_evidence_support_lookup_witness :
    (_evidence_support
      [{ patient_id := .vstr "p1", note_id := .vstr "n1", note_date := .vnone,
         note_type := .vnone, field := .vnone, entity := .vstr "ki67_percent",
         value := .vfloatInt 35, start := 0, stop := 2, snippet := "", label := "KI67",
         confidence := 0.8, is_negated := false, is_uncertain := false }]
      (.vstr "p1") "ki67_percent" (.vstr "35")).1 = true := by
  refine ((C6_evidence_support_lookup.1 _ _ _ _).1).mpr ?_
  refine ⟨_, List.mem_singleton.mpr rfl, by decide, by decide, by decide, rfl, rfl⟩

theorem normalize_percent_le (s : String) (w : Nat)
    (h : normalize_percent s = some w) : w ≤ 100 := by
  unfold normalize_percent at h
  split_ifs at h
  cases hm : firstDigitRun s.data with
  | none => rw [hm] at h; exact absurd h (by simp)
  | some ds =>
    rw [hm] at h
    dsimp only at h
    split_ifs at h with hle
    · rw [Option.some.injEq] at h
      omega

/-- Claim C7: `normalize_percent` never returns a value outside `[0, 100]`;
a rendered integer followed by `%` is returned exactly when it is at most
100; `"150%"` is rejected and `"7%"` yields 7. -/
theorem C7_normalize_percent :
    (∀ (s : String) (w : Nat), normalize_percent s = some w → w ≤ 100) ∧
    (∀ v : Nat, normalize_percent (toString v ++ "%") = some v ↔ v ≤ 100) ∧
    normalize_percent "150%" = none ∧
    normalize_percent "7%" = some 7 := by
  refine ⟨normalize_percent_le, ?_, by decide, by decide⟩
  intro v
  constructor
  · intro h
    exact normalize_percent_le _ _ h
  · intro hv
    have hall : ∀ w : Nat, w < 101 → normalize_percent (toString w ++ "%") = some w := by
      decide
    exact hall v (by omega)

/-- Witness for C7: the soundness and acceptance parts applied at concrete
inputs. -/
theorem C7_normalize_percent_witness :
    (42 : Nat) ≤ 100 ∧ normalize_percent (toString (42 : Nat) ++ "%") = some 42 := by
  refine ⟨by decide, ?_⟩
  exact (C7_normalize_percent.2.1 42).mpr (by decide)

/-- Claim C9: aggregation of an empty note-record sequence, or of a sequence
whose first record has no (falsy) patient id, returns the empty record; the
function is total, so no error is possible. -/
theorem C9_aggregate_empty :
    (∀ evidence_rows : List Evidence, aggregate_patient [] evidence_rows = []) ∧
    (∀ (first : Dict) (rest : List Dict) (evidence_rows : List Evidence),
      pyTruthy (dget first "patient_id") = false →
      aggregate_patient (first :: rest) evidence_rows = []) := by
  refine ⟨fun _ => rfl, ?_⟩
  intro first rest ev h
  simp [aggregate_patient, h]

/-- Witness for C9: a patient-id-less note set aggregates to the empty
record. -/
theorem C9_aggregate_empty_witness :
    aggregate_patient [[("note_id", PyVal.vstr "n1")]] [] = [] :=
  C9_aggregate_empty.2 [("note_id", PyVal.vstr "n1")] [] [] (by decide)

/-- Counterexample to claim C2: on the already-selected FISH text
`"pending"` the aggregator's `_compute_her2_final` returns
`(Unknown, fish)` while the §4.2 function `her2_final_status` (with absent
explicit text) returns `(none, none)`; moreover the aggregator writes the
indeterminate `"Unknown"` into `her2_final_status` for such a patient. -/
theorem C2_counterexample :
    _compute_her2_final PyVal.vnone (PyVal.vstr "pending") ≠
      her2_final_status none (some "pending") none ∧
    dget (aggregate_patient
        [[("patient_id", PyVal.vstr "p1"), ("her2_fish", PyVal.vstr "pending")]] [])
      "her2_final_status" = PyVal.vstr "Unknown" ∧
    (her2_final_status none (some "pending") none).1 = none := by
  refine ⟨by decide, by decide, by decide⟩

/-- Corrected C2: the aggregator's HER2 computation agrees with the §4.2
function (restricted to absent explicit text) on the canonical selected
values — FISH absent, `"Amplified"` or `"Not amplified"`, and IHC absent or
one of the table scores — but not on arbitrary strings (see the
counterexample); the aggregator writes `her2_final_status`/`her2_confidence`
whenever `_compute_her2_final` yields a non-`None` component, including the
indeterminate `"Unknown"`. -/
theorem C2_amended :
    (∀ i ∈ ([none, some "3+", some "3", some "2+", some "2", some "1+", some "1",
        some "0", some "0+", some "0/1+", some "0-1+", some "0-1"] :
        List (Option String)),
     ∀ f ∈ ([none, some "Amplified", some "Not amplified"] : List (Option String)),
      _compute_her2_final (optToVal i) (optToVal f) = her2_final_status i f none) ∧
    (∀ (out : Dict) (s c : String),
      _compute_her2_final (dget out "her2_ihc_score") (dget out "her2_fish") =
        (some s, some c) →
      dget (writeHer2 out) "her2_final_status" = .vstr s ∧
      dget (writeHer2 out) "her2_confidence" = .vstr c) := by
  constructor
  · decide
  · intro out s c h
    unfold writeHer2
    rw [h]
    simp [dget_dset]

/-- Witness for C2 (amended): agreement at a concrete canonical pair, and a
concrete non-`None` (here indeterminate) result being written. -/
theorem C2_amended_witness :
    _compute_her2_final (optToVal (some "3+")) (optToVal none) =
      her2_final_status (some "3+") none none ∧
    dget (writeHer2 [("her2_fish", PyVal.vstr "pending")]) "her2_final_status" =
      PyVal.vstr "Unknown" := by
  constructor
  · exact C2_amended.1 (some "3+") (by decide) none (by decide)
  · exact (C2_amended.2 [("her2_fish", PyVal.vstr "pending")] "Unknown" "fish"
      (by decide)).1

theorem toordinal_pos (d : PyDate) : 1 ≤ toordinal d := by
  unfold toordinal
  omega

/-- Claim C10 (implicit): a missing date, or a date string the parser cannot
handle, scores date-ordinal 0 in `_note_score` (parse failures degrade to
the absent-date score rather than raising), so among notes of equal type
precedence a note without a parsable date is ranked strictly below every
note with one. -/
theorem C10_unparsable_dates :
    (∀ nt : PyVal, (_note_score nt .vnone).2 = 0) ∧
    (∀ (nt : PyVal) (s : String), dtparse s = none →
      (_note_score nt (.vstr s)).2 = 0) ∧
    (∀ (nt d : PyVal), _parse_date d = none → (_note_score nt d).2 = 0) ∧
    (∀ (nt1 nt2 d1 d2 : PyVal),
      NOTE_TYPE_PRECEDENCE nt1 = NOTE_TYPE_PRECEDENCE nt2 →
      _parse_date d1 = none → _parse_date d2 ≠ none →
      (_note_score nt1 d1).1 = (_note_score nt2 d2).1 ∧
      (_note_score nt1 d1).2 < (_note_score nt2 d2).2) ∧
    (∀ a b : Dict,
      NOTE_TYPE_PRECEDENCE (dget a "note_type") = NOTE_TYPE_PRECEDENCE (dget b "note_type") →
      _parse_date (dget a "note_date") = none →
      _parse_date (dget b "note_date") ≠ none →
      noteKeyGE b a ∧ ¬ noteKeyGE a b) := by
  have score2_of_none : ∀ (nt d : PyVal), _parse_date d = none → (_note_score nt d).2 = 0 := by
    intro nt d h
    simp [_note_score, h]
  have score2_of_some : ∀ (nt d : PyVal) (dd : PyDate), _parse_date d = some dd →
      (_note_score nt d).2 = toordinal dd := by
    intro nt d dd h
    simp [_note_score, h]
  refine ⟨?_, ?_, score2_of_none, ?_, ?_⟩
  · intro nt
    exact score2_of_none nt .vnone (by simp [_parse_date, pyTruthy])
  · intro nt s h
    by_cases hs : s = ""
    · exact score2_of_none nt _ (by simp [_parse_date, pyTruthy, hs])
    · exact score2_of_none nt _ (by simp [_parse_date, pyTruthy, hs, h])
  · intro nt1 nt2 d1 d2 hpre h1 h2
    obtain ⟨dd, hdd⟩ := Option.ne_none_iff_exists'.mp h2
    have e1 := score2_of_none nt1 d1 h1
    have e2 := score2_of_some nt2 d2 dd hdd
    have e3 := toordinal_pos dd
    constructor
    · simp [_note_score, hpre]
    · omega
  · intro a b hpre h1 h2
    obtain ⟨dd, hdd⟩ := Option.ne_none_iff_exists'.mp h2
    have e1 := score2_of_none (dget a "note_type") (dget a "note_date") h1
    have e2 := score2_of_some (dget b "note_type") (dget b "note_date") dd hdd
    have e3 := toordinal_pos dd
    have epre : (noteKey a).1 = (noteKey b).1 := by
      simp [noteKey, _note_score, hpre]
    unfold noteKeyGE
    unfold noteKey at *
    constructor
    · right
      omega
    · omega

/-- Witness for C10: a concrete unparsable date string is outscored by a
concrete parsable one at equal precedence. -/
theorem C10_unparsable_dates_witness :
    (_note_score (.vstr "Pathology") (.vstr "not a date")).2 = 0 ∧
    ((_note_score (.vstr "Pathology") (.vstr "not a date")).1 =
        (_note_score (.vstr "Pathology") (.vstr "2023-02-01")).1 ∧
      (_note_score (.vstr "Pathology") (.vstr "not a date")).2 <
        (_note_score (.vstr "Pathology") (.vstr "2023-02-01")).2) := by
  constructor
  · exact C10_unparsable_dates.2.1 (.vstr "Pathology") "not a date" (by decide)
  · exact C10_unparsable_dates.2.2.2.1 (.vstr "Pathology") (.vstr "Pathology")
      (.vstr "not a date") (.vstr "2023-02-01") rfl (by decide) (by decide)

-- ---------------------------------------------------------------------
-- Aggregation-loop lemmas
-- ---------------------------------------------------------------------

theorem str_append_ne (g s : String) (hs : s ≠ "") : g ++ s ≠ g := by
  intro h
  apply hs
  have hlen : (g ++ s).length = g.length := by rw [h]
  rw [String.length_append] at hlen
  have h0 : s.length = 0 := by omega
  cases s with
  | mk l =>
    have hl : l.length = 0 := h0
    have : l = [] := List.length_eq_zero.mp hl
    subst this
    rfl

theorem processField_none (ev : List Evidence) (pid : PyVal) (ranked : List Dict)
    (out : Dict) (g : String) (hsel : pickSel ev pid ranked g = none) :
    processField ev pid ranked out g = out := by
  unfold processField
  rw [hsel]

theorem dget_processField_not_written (ev : List Evidence) (pid : PyVal)
    (ranked : List Dict) (out : Dict) (g m : String)
    (hw : writesKey g m = false) :
    dget (processField ev pid ranked out g) m = dget out m := by
  simp only [writesKey, Bool.or_eq_false_iff, beq_eq_false_iff_ne] at hw
  obtain ⟨⟨⟨⟨⟨⟨⟨h1, h2⟩, h3⟩, h4⟩, h5⟩, h6⟩, h7⟩, h8⟩ := hw
  cases hsel : pickSel ev pid ranked g with
  | none => rw [processField_none ev pid ranked out g hsel]
  | some vr =>
    obtain ⟨chosen, row⟩ := vr
    unfold processField
    rw [hsel]
    split_ifs <;> simp [dget_dset, h1, h2, h3, h4, h5, h6, h7, h8]

theorem dget_processField_self (ev : List Evidence) (pid : PyVal)
    (ranked : List Dict) (out : Dict) (f : String)
    (hc1 : f ≠ "er_confidence") (hc2 : f ≠ "pr_confidence")
    (hc3 : f ≠ "ki67_confidence") (hc4 : f ≠ "histology_confidence") :
    dget (processField ev pid ranked out f) f =
      match pickSel ev pid ranked f with
      | none => dget out f
      | some vr => vr.1 := by
  cases hsel : pickSel ev pid ranked f with
  | none => rw [processField_none ev pid ranked out f hsel]
  | some vr =>
    obtain ⟨chosen, row⟩ := vr
    have hs1 : f ≠ f ++ "__source_note_id" := (str_append_ne f _ (by decide)).symm
    have hs2 : f ≠ f ++ "__source_note_type" := (str_append_ne f _ (by decide)).symm
    have hs3 : f ≠ f ++ "__source_note_date" := (str_append_ne f _ (by decide)).symm
    unfold processField
    rw [hsel]
    split_ifs with e1 e2 e3 e4 e5 e6 <;>
      simp [dget_dset, hs1, hs2, hs3, hc1, hc2, hc3, hc4]

/-- A fold of the base-field loop never changes a key that no processed
field writes. -/
theorem dget_foldl_not_written (ev : List Evidence) (pid : PyVal)
    (ranked : List Dict) (m : String) (fs : List String) :
    ∀ out : Dict, (∀ g ∈ fs, writesKey g m = false) →
      dget (fs.foldl (processField ev pid ranked) out) m = dget out m := by
  induction fs with
  | nil => intro out _; rfl
  | cons g rest ih =>
    intro out h
    rw [List.foldl_cons, ih _ (fun g' hg' => h g' (List.mem_cons_of_mem _ hg')),
      dget_processField_not_written ev pid ranked out g m (h g (List.mem_cons_self _ _))]

/-- After the base-field fold, a processed field holds exactly its two-pass
selection (or its initial value when the selection is empty). -/
theorem dget_foldl_processField (ev : List Evidence) (pid : PyVal)
    (ranked : List Dict) (f : String) (fs : List String)
    (hno : ∀ g ∈ fs, g ≠ f → writesKey g f = false)
    (hc1 : f ≠ "er_confidence") (hc2 : f ≠ "pr_confidence")
    (hc3 : f ≠ "ki67_confidence") (hc4 : f ≠ "histology_confidence") :
    ∀ out : Dict,
      dget (fs.foldl (processField ev pid ranked) out) f =
        if f ∈ fs then
          match pickSel ev pid ranked f with
          | none => dget out f
          | some vr => vr.1
        else dget out f := by
  induction fs with
  | nil => intro out; simp
  | cons g rest ih =>
    intro out
    have hno' : ∀ g' ∈ rest, g' ≠ f → writesKey g' f = false :=
      fun g' hg' => hno g' (List.mem_cons_of_mem _ hg')
    rw [List.foldl_cons, ih hno']
    by_cases hmem : f ∈ rest
    · rw [if_pos hmem, if_pos (List.mem_cons_of_mem _ hmem)]
      cases hsel : pickSel ev pid ranked f with
      | some vr => rfl
      | none =>
        by_cases hgf : g = f
        · subst hgf
          rw [dget_processField_self ev pid ranked out g hc1 hc2 hc3 hc4, hsel]
        · rw [dget_processField_not_written ev pid ranked out g f
            (hno g (List.mem_cons_self _ _) hgf)]
    · rw [if_neg hmem]
      by_cases hgf : g = f
      · subst hgf
        rw [if_pos (List.mem_cons_self _ _),
          dget_processField_self ev pid ranked out g hc1 hc2 hc3 hc4]
      · rw [dget_processField_not_written ev pid ranked out g f
          (hno g (List.mem_cons_self _ _) hgf),
          if_neg (by
            simp only [List.mem_cons, hmem, or_false]
            exact fun h => hgf h.symm)]

/-- The final HER2 write never changes other keys. -/
theorem dget_writeHer2_ne (out : Dict) (m : String)
    (h1 : m ≠ "her2_final_status") (h2 : m ≠ "her2_confidence") :
    dget (writeHer2 out) m = dget out m := by
  unfold writeHer2
  rcases hc : _compute_her2_final (dget out "her2_ihc_score") (dget out "her2_fish")
    with ⟨o1, o2⟩
  simp only [hc]
  cases o1 <;> cases o2 <;> simp [dget_dset, h1, h2]

/-- Stability of the note ranking: the notes of any fixed composite key keep
their original relative order (their filtered subsequence is unchanged). -/
theorem rank_stable (rows : List Dict) (k : Int × Int) :
    (List.insertionSort noteKeyGE rows).filter (fun r => decide (noteKey r = k)) =
      rows.filter (fun r => decide (noteKey r = k)) := by
  have hfil : ∀ a ∈ rows.filter (fun r => decide (noteKey r = k)), noteKey a = k :=
    fun a ha => of_decide_eq_true (List.mem_filter.mp ha).2
  have hpw : (rows.filter (fun r => decide (noteKey r = k))).Pairwise noteKeyGE := by
    refine List.pairwise_of_forall_mem_list ?_
    intro a ha b hb
    unfold noteKeyGE
    rw [hfil a ha, hfil b hb]
    exact Or.inr ⟨rfl, le_refl _⟩
  have hsub : List.Sublist (rows.filter (fun r => decide (noteKey r = k)))
      (List.insertionSort noteKeyGE rows) :=
    List.sublist_insertionSort hpw (List.filter_sublist rows)
  have hperm : List.Perm
      ((List.insertionSort noteKeyGE rows).filter (fun r => decide (noteKey r = k)))
      (rows.filter (fun r => decide (noteKey r = k))) :=
    (List.perm_insertionSort noteKeyGE rows).filter _
  have hsub2 := hsub.filter (fun r => decide (noteKey r = k))
  have hff : (rows.filter (fun r => decide (noteKey r = k))).filter
      (fun r => decide (noteKey r = k)) = rows.filter (fun r => decide (noteKey r = k)) :=
    List.filter_eq_self.mpr (fun a ha => (List.mem_filter.mp ha).2)
  rw [hff] at hsub2
  exact (hsub2.eq_of_length hperm.length_eq.symm).symm

/-- The Scenario-B computation: whenever the ranked list is the Pathology
note followed by the Radiology note and the Pathology ER value has clean
support, aggregation chooses that value with bucket `pathology`. -/
theorem scenario_core (ev : List Evidence) (pid nidR nidP : String) (dR dP vR vP : PyVal)
    (first : Dict) (rest : List Dict)
    (hpid : pid ≠ "")
    (hfirst : dget first "patient_id" = .vstr pid)
    (hrank : List.insertionSort noteKeyGE (first :: rest) =
      [pathRow pid nidP dP vP, radioRow pid nidR dR vR])
    (hv : isEmptyVal vP = false)
    (hclean : (_evidence_support ev (.vstr pid) "er_status" vP).1 = true) :
    dget (aggregate_patient (first :: rest) ev) "er_status" = vP ∧
    dget (aggregate_patient (first :: rest) ev) "er_confidence" = .vstr "pathology" ∧
    dget (aggregate_patient (first :: rest) ev) "er_status__source_note_id" = .vstr nidP := by
  have hagg : aggregate_patient (first :: rest) ev =
      writeHer2 (base_fields.foldl
        (processField ev (.vstr pid) [pathRow pid nidP dP vP, radioRow pid nidR dR vR])
        (init_out (.vstr pid))) := by
    unfold aggregate_patient
    simp only [hfirst]
    rw [if_neg (by simp [pyTruthy, hpid]), hrank]
  have hsel : pickSel ev (.vstr pid)
      [pathRow pid nidP dP vP, radioRow pid nidR dR vR] "er_status" =
      some (vP, pathRow pid nidP dP vP) := by
    unfold pickSel firstClean
    simp [show dget (pathRow pid nidP dP vP) "er_status" = vP from rfl, hv, hclean]
  rw [hagg]
  refine ⟨?_, ?_, ?_⟩
  · rw [dget_writeHer2_ne _ _ (by decide) (by decide),
      dget_foldl_processField ev (.vstr pid) _ "er_status" base_fields
        (by decide) (by decide) (by decide) (by decide) (by decide),
      if_pos (by decide), hsel]
  · rw [dget_writeHer2_ne _ _ (by decide) (by decide)]
    simp only [base_fields, List.foldl_cons, List.foldl_nil]
    rw [processField_none ev (.vstr pid)
        [pathRow pid nidP dP vP, radioRow pid nidR dR vR] _ "pr_percent" rfl,
      processField_none ev (.vstr pid)
        [pathRow pid nidP dP vP, radioRow pid nidR dR vR] _ "er_percent" rfl,
      processField_none ev (.vstr pid)
        [pathRow pid nidP dP vP, radioRow pid nidR dR vR] _ "stage_path" rfl,
      processField_none ev (.vstr pid)
        [pathRow pid nidP dP vP, radioRow pid nidR dR vR] _ "stage_clinical" rfl,
      processField_none ev (.vstr pid)
        [pathRow pid nidP dP vP, radioRow pid nidR dR vR] _ "grade" rfl,
      processField_none ev (.vstr pid)
        [pathRow pid nidP dP vP, radioRow pid nidR dR vR] _ "histology" rfl,
      processField_none ev (.vstr pid)
        [pathRow pid nidP dP vP, radioRow pid nidR dR vR] _ "ki67_percent" rfl,
      processField_none ev (.vstr pid)
        [pathRow pid nidP dP vP, radioRow pid nidR dR vR] _ "her2_fish" rfl,
      processField_none ev (.vstr pid)
        [pathRow pid nidP dP vP, radioRow pid nidR dR vR] _ "her2_ihc_score" rfl,
      processField_none ev (.vstr pid)
        [pathRow pid nidP dP vP, radioRow pid nidR dR vR] _ "pr_status" rfl]
    unfold processField
    rw [hsel]
    have hbucket : _confidence_bucket (dget (pathRow pid nidP dP vP) "note_type") =
        "pathology" := rfl
    simp [dget_dset, hbucket]
  · rw [dget_writeHer2_ne _ _ (by decide) (by decide)]
    simp only [base_fields, List.foldl_cons, List.foldl_nil]
    rw [processField_none ev (.vstr pid)
        [pathRow pid nidP dP vP, radioRow pid nidR dR vR] _ "pr_percent" rfl,
      processField_none ev (.vstr pid)
        [pathRow pid nidP dP vP, radioRow pid nidR dR vR] _ "er_percent" rfl,
      processField_none ev (.vstr pid)
        [pathRow pid nidP dP vP, radioRow pid nidR dR vR] _ "stage_path" rfl,
      processField_none ev (.vstr pid)
        [pathRow pid nidP dP vP, radioRow pid nidR dR vR] _ "stage_clinical" rfl,
      processField_none ev (.vstr pid)
        [pathRow pid nidP dP vP, radioRow pid nidR dR vR] _ "grade" rfl,
      processField_none ev (.vstr pid)
        [pathRow pid nidP dP vP, radioRow pid nidR dR vR] _ "histology" rfl,
      processField_none ev (.vstr pid)
        [pathRow pid nidP dP vP, radioRow pid nidR dR vR] _ "ki67_percent" rfl,
      processField_none ev (.vstr pid)
        [pathRow pid nidP dP vP, radioRow pid nidR dR vR] _ "her2_fish" rfl,
      processField_none ev (.vstr pid)
        [pathRow pid nidP dP vP, radioRow pid nidR dR vR] _ "her2_ihc_score" rfl,
      processField_none ev (.vstr pid)
        [pathRow pid nidP dP vP, radioRow pid nidR dR vR] _ "pr_status" rfl]
    unfold processField
    rw [hsel]
    simp [dget_dset]
    rfl

set_option maxHeartbeats 2000000 in
/-- Claim C3: aggregation ranks notes by (type precedence desc, date ordinal
desc) with the static precedence table (pathology family 100, oncology
consult 70, radiology 40, progress note 30, everything else 0), equal keys
keeping their original relative order (the ranking is sorted, a permutation,
and stable); consequently a Pathology note with a clean-evidence ER value
beats a conflicting Radiology note regardless of dates and input order, with
confidence bucket `pathology`. -/
theorem C3_note_ranking :
    (NOTE_TYPE_PRECEDENCE (.vstr "Pathology") = 100 ∧
     NOTE_TYPE_PRECEDENCE (.vstr "SurgicalPathology") = 100 ∧
     NOTE_TYPE_PRECEDENCE (.vstr "PathologyAddendum") = 100 ∧
     NOTE_TYPE_PRECEDENCE (.vstr "Addendum") = 100 ∧
     NOTE_TYPE_PRECEDENCE (.vstr "OncologyConsult") = 70 ∧
     NOTE_TYPE_PRECEDENCE (.vstr "Radiology") = 40 ∧
     NOTE_TYPE_PRECEDENCE (.vstr "ProgressNote") = 30 ∧
     NOTE_TYPE_PRECEDENCE (.vstr "Unknown") = 0 ∧
     NOTE_TYPE_PRECEDENCE (.vstr "") = 0 ∧
     NOTE_TYPE_PRECEDENCE .vnone = 0) ∧
    (∀ v : PyVal,
      v ∉ ([.vstr "Pathology", .vstr "SurgicalPathology", .vstr "PathologyAddendum",
        .vstr "Addendum", .vstr "OncologyConsult", .vstr "Radiology",
        .vstr "ProgressNote"] : List PyVal) →
      NOTE_TYPE_PRECEDENCE v = 0) ∧
    (∀ rows : List Dict, (List.insertionSort noteKeyGE rows).Pairwise noteKeyGE) ∧
    (∀ rows : List Dict, List.Perm (List.insertionSort noteKeyGE rows) rows) ∧
    (∀ (rows : List Dict) (k : Int × Int),
      (List.insertionSort noteKeyGE rows).filter (fun r => decide (noteKey r = k)) =
        rows.filter (fun r => decide (noteKey r = k))) ∧
    (∀ (ev : List Evidence) (pid nidR nidP : String) (dR dP vR vP : PyVal),
      pid ≠ "" → isEmptyVal vP = false →
      (_evidence_support ev (.vstr pid) "er_status" vP).1 = true →
      (dget (aggregate_patient [radioRow pid nidR dR vR, pathRow pid nidP dP vP] ev)
          "er_status" = vP ∧
        dget (aggregate_patient [radioRow pid nidR dR vR, pathRow pid nidP dP vP] ev)
          "er_confidence" = .vstr "pathology" ∧
        dget (aggregate_patient [radioRow pid nidR dR vR, pathRow pid nidP dP vP] ev)
          "er_status__source_note_id" = .vstr nidP) ∧
      (dget (aggregate_patient [pathRow pid nidP dP vP, radioRow pid nidR dR vR] ev)
          "er_status" = vP ∧
        dget (aggregate_patient [pathRow pid nidP dP vP, radioRow pid nidR dR vR] ev)
          "er_confidence" = .vstr "pathology" ∧
        dget (aggregate_patient [pathRow pid nidP dP vP, radioRow pid nidR dR vR] ev)
          "er_status__source_note_id" = .vstr nidP)) := by
  refine ⟨by decide, ?_, ?_, ?_, ?_, ?_⟩
  · intro v hv
    unfold NOTE_TYPE_PRECEDENCE
    split_ifs with h1 h2 h3 h4 h5 h6 h7 h8 h9 h10
    · subst h1; exact absurd (by decide) hv
    · subst h2; exact absurd (by decide) hv
    · subst h3; exact absurd (by decide) hv
    · subst h4; exact absurd (by decide) hv
    · subst h5; exact absurd (by decide) hv
    · subst h6; exact absurd (by decide) hv
    · subst h7; exact absurd (by decide) hv
    all_goals rfl
  · intro rows
    exact List.sorted_insertionSort noteKeyGE rows
  · intro rows
    exact List.perm_insertionSort noteKeyGE rows
  · intro rows k
    exact rank_stable rows k
  · intro ev pid nidR nidP dR dP vR vP hpid hv hclean
    constructor
    · exact scenario_core ev pid nidR nidP dR dP vR vP
        (radioRow pid nidR dR vR) [pathRow pid nidP dP vP] hpid rfl rfl hv hclean
    · exact scenario_core ev pid nidR nidP dR dP vR vP
        (pathRow pid nidP dP vP) [radioRow pid nidR dR vR] hpid rfl rfl hv hclean

set_option maxHeartbeats 1000000 in
/-- Witness for C3: an unlisted note type scores 0, and the two-note
Pathology-vs-Radiology scenario applied at concrete notes and evidence. -/
theorem C3_note_ranking_witness :
    NOTE_TYPE_PRECEDENCE (.vstr "LabReport") = 0 ∧
    dget (aggregate_patient
        [radioRow "p1" "R" (.vstr "2023-01-01") (.vstr "Positive"),
         pathRow "p1" "P" (.vstr "2023-02-01") (.vstr "Negative")]
        [{ patient_id := .vstr "p1", note_id := .vstr "P", note_date := .vnone,
           note_type := .vstr "Pathology", field := .vstr "er_status",
           entity := .vstr "er_status", value := .vstr "Negative", start := 0,
           stop := 1, snippet := "", label := "ER_NEG", confidence := 0.85,
           is_negated := false, is_uncertain := false }])
      "er_status" = .vstr "Negative" ∧
    dget (aggregate_patient
        [radioRow "p1" "R" (.vstr "2023-01-01") (.vstr "Positive"),
         pathRow "p1" "P" (.vstr "2023-02-01") (.vstr "Negative")]
        [{ patient_id := .vstr "p1", note_id := .vstr "P", note_date := .vnone,
           note_type := .vstr "Pathology", field := .vstr "er_status",
           entity := .vstr "er_status", value := .vstr "Negative", start := 0,
           stop := 1, snippet := "", label := "ER_NEG", confidence := 0.85,
           is_negated := false, is_uncertain := false }])
      "er_confidence" = .vstr "pathology" := by
  refine ⟨C3_note_ranking.2.1 _ (by decide), ?_, ?_⟩
  · exact ((C3_note_ranking.2.2.2.2.2 _ "p1" "R" "P" (.vstr "2023-01-01")
      (.vstr "2023-02-01") (.vstr "Positive") (.vstr "Negative")
      (by decide) (by decide) (by decide)).1).1
  · exact ((C3_note_ranking.2.2.2.2.2 _ "p1" "R" "P" (.vstr "2023-01-01")
      (.vstr "2023-02-01") (.vstr "Positive") (.vstr "Negative")
      (by decide) (by decide) (by decide)).1).2.1

theorem firstClean_none (ev : List Evidence) (pid : PyVal) (f : String)
    (h : ∀ w : PyVal, (_evidence_support ev pid f w).1 = false) :
    ∀ l : List Dict, firstClean ev pid f l = none := by
  intro l
  induction l with
  | nil => rfl
  | cons r rest ih =>
    unfold firstClean
    by_cases he : isEmptyVal (dget r f) = true
    · simp [he, ih]
    · simp only [Bool.not_eq_true] at he
      simp [he, h (dget r f), ih]

/-- Claim C4: if every evidence row for a patient and field is negated, pass
1 (the clean-evidence scan) finds nothing, and the pass-2 fallback still
selects the first non-empty ranked value for the field — negation is never
consulted by pass 2. -/
theorem C4_negation_gap :
    ∀ (ev : List Evidence) (first : Dict) (rest : List Dict) (f : String)
      (v : PyVal) (r : Dict),
      f ∈ base_fields →
      pyTruthy (dget first "patient_id") = true →
      (∀ e ∈ ev, pyEq e.patient_id (dget first "patient_id") = true →
        pyEq (pyOr e.field e.entity) (.vstr f) = true → e.is_negated = true) →
      firstNonEmpty f (List.insertionSort noteKeyGE (first :: rest)) = some (v, r) →
      dget (aggregate_patient (first :: rest) ev) f = v := by
  intro ev first rest f v r hf htruthy hneg hsel
  have hnoclean : ∀ w : PyVal,
      (_evidence_support ev (dget first "patient_id") f w).1 = false := by
    intro w
    by_contra hcl
    rw [Bool.not_eq_false] at hcl
    obtain ⟨e, he, h1, h2, _, hn, _⟩ :=
      (evidence_support_clean_iff ev (dget first "patient_id") f w).mp hcl
    rw [hneg e he h1 h2] at hn
    exact Bool.noConfusion hn
  have hpick : pickSel ev (dget first "patient_id")
      (List.insertionSort noteKeyGE (first :: rest)) f = some (v, r) := by
    unfold pickSel
    rw [firstClean_none ev (dget first "patient_id") f hnoclean, hsel]
  have hside : f ≠ "er_confidence" ∧ f ≠ "pr_confidence" ∧
      f ≠ "ki67_confidence" ∧ f ≠ "histology_confidence" ∧
      f ≠ "her2_final_status" ∧ f ≠ "her2_confidence" := by
    fin_cases hf <;> decide
  have hno : ∀ g ∈ base_fields, g ≠ f → writesKey g f = false := by
    fin_cases hf <;> decide
  have hagg : aggregate_patient (first :: rest) ev =
      writeHer2 (base_fields.foldl
        (processField ev (dget first "patient_id")
          (List.insertionSort noteKeyGE (first :: rest)))
        (init_out (dget first "patient_id"))) := by
    show (if pyTruthy (dget first "patient_id") = false then ([] : Dict)
      else writeHer2 (List.foldl (processField ev (dget first "patient_id")
        (List.insertionSort noteKeyGE (first :: rest)))
        (init_out (dget first "patient_id")) base_fields)) = _
    rw [if_neg (by simp [htruthy])]
  rw [hagg,
    dget_writeHer2_ne _ _ hside.2.2.2.2.1 hside.2.2.2.2.2,
    dget_foldl_processField ev (dget first "patient_id") _ f base_fields hno
      hside.1 hside.2.1 hside.2.2.1 hside.2.2.2.1,
    if_pos hf, hpick]

/-- Witness for C4: a field whose only evidence is negated is still filled
by the fallback pass. -/
theorem C4_negation_gap_witness :
    dget (aggregate_patient
      [[("patient_id", PyVal.vstr "p1"), ("note_id", PyVal.vstr "n1"),
        ("note_type", PyVal.vstr "Pathology"), ("er_status", PyVal.vstr "Positive")]]
      [{ patient_id := .vstr "p1", note_id := .vstr "n1", note_date := .vnone,
         note_type := .vstr "Pathology", field := .vstr "er_status",
         entity := .vstr "er_status", value := .vstr "Positive", start := 0,
         stop := 1, snippet := "", label := "ER_POS", confidence := 0.85,
         is_negated := true, is_uncertain := false }])
      "er_status" = PyVal.vstr "Positive" := by
  exact C4_negation_gap _
    [("patient_id", PyVal.vstr "p1"), ("note_id", PyVal.vstr "n1"),
     ("note_type", PyVal.vstr "Pathology"), ("er_status", PyVal.vstr "Positive")]
    [] "er_status" (PyVal.vstr "Positive")
    [("patient_id", PyVal.vstr "p1"), ("note_id", PyVal.vstr "n1"),
     ("note_type", PyVal.vstr "Pathology"), ("er_status", PyVal.vstr "Positive")]
    (by decide) (by decide) (by decide) (by decide)

-- ---------------------------------------------------------------------
-- Stage-regex lemmas (C8)
-- ---------------------------------------------------------------------

theorem takeWhile_all {α : Type} {p : α → Bool} :
    ∀ l : List α, (∀ c ∈ l, p c = true) → l.takeWhile p = l := by
  intro l h
  induction l with
  | nil => rfl
  | cons c cs ih =>
    rw [List.takeWhile_cons, h c (List.mem_cons_self _ _), if_pos rfl,
      ih fun d hd => h d (List.mem_cons_of_mem _ hd)]

theorem dropWhile_all {α : Type} {p : α → Bool} :
    ∀ l : List α, (∀ c ∈ l, p c = true) → l.dropWhile p = [] := by
  intro l h
  induction l with
  | nil => rfl
  | cons c cs ih =>
    rw [List.dropWhile_cons, h c (List.mem_cons_self _ _), if_pos rfl]
    exact ih fun d hd => h d (List.mem_cons_of_mem _ hd)

theorem stageTryAt_shape (roman rest2 : List Char) (k : Nat) (rm sf : List Char)
    (h : stageTryAt roman rest2 k = some (rm, sf)) :
    rm = roman ∧ (sf = [] ∨ sf = ['a'] ∨ sf = ['b'] ∨ sf = ['c']) := by
  unfold stageTryAt at h
  cases hp : rest2.drop k with
  | nil =>
    rw [hp] at h
    dsimp only at h
    split_ifs at h <;>
      first
      | (rw [Option.some.injEq, Prod.mk.injEq] at h
         exact ⟨h.1.symm, Or.inl h.2.symm⟩)
      | exact absurd h (by simp)
  | cons c after =>
    rw [hp] at h
    dsimp only at h
    by_cases h1 : (c = 'a' ∨ c = 'b' ∨ c = 'c') ∧
        (after.head?.elim true fun d => !isWordChar d) = true
    · rw [if_pos h1] at h
      dsimp only at h
      rw [Option.some.injEq, Prod.mk.injEq] at h
      refine ⟨h.1.symm, ?_⟩
      rcases h1.1 with rfl | rfl | rfl
      · exact Or.inr (Or.inl h.2.symm)
      · exact Or.inr (Or.inr (Or.inl h.2.symm))
      · exact Or.inr (Or.inr (Or.inr h.2.symm))
    · rw [if_neg h1] at h
      dsimp only at h
      split_ifs at h <;>
        first
        | (rw [Option.some.injEq, Prod.mk.injEq] at h
           exact ⟨h.1.symm, Or.inl h.2.symm⟩)
        | exact absurd h (by simp)

theorem stageTail_shape (roman rest2 : List Char) :
    ∀ (k : Nat) (rm sf : List Char), stageTail roman rest2 k = some (rm, sf) →
      rm = roman ∧ (sf = [] ∨ sf = ['a'] ∨ sf = ['b'] ∨ sf = ['c']) := by
  intro k
  induction k with
  | zero => intro rm sf h; exact stageTryAt_shape roman rest2 0 rm sf h
  | succ k' ih =>
    intro rm sf h
    unfold stageTail at h
    cases ht : stageTryAt roman rest2 (k' + 1) with
    | some r =>
      rw [ht] at h
      rw [Option.some.injEq] at h
      subst h
      exact stageTryAt_shape roman rest2 (k' + 1) rm sf ht
    | none =>
      rw [ht] at h
      exact ih rm sf h

theorem stageStep_shape (prev : Option Char) (cs : List Char) (rm sf : List Char)
    (h : stageStep prev cs = some (rm, sf)) :
    rm ≠ [] ∧ (∀ c ∈ rm, c = 'i' ∨ c = 'v' ∨ c = 'x') ∧
      (sf = [] ∨ sf = ['a'] ∨ sf = ['b'] ∨ sf = ['c']) := by
  unfold stageStep at h
  split_ifs at h
  split at h
  case pos.h_2 => exact absurd h (by simp)
  case pos.h_1 rest =>
    dsimp only at h
    split_ifs at h with hemp
    obtain ⟨hrm, hsf⟩ := stageTail_shape _ _ _ rm sf h
    subst hrm
    refine ⟨fun hnil => ?_, ?_, hsf⟩
    · rw [hnil] at hemp
      exact hemp rfl
    · intro c hc
      have := List.mem_takeWhile_imp hc
      exact of_decide_eq_true this

theorem scanText_shape {α : Type} (step : Option Char → List Char → Option α) :
    ∀ (cs : List Char) (prev : Option Char) (r : α), scanText step prev cs = some r →
      ∃ prev' cs', step prev' cs' = some r := by
  intro cs
  induction cs with
  | nil =>
    intro prev r h
    exact ⟨prev, [], h⟩
  | cons c rest ih =>
    intro prev r h
    unfold scanText at h
    cases hs : step prev (c :: rest) with
    | some r' =>
      rw [hs] at h
      rw [Option.some.injEq] at h
      subst h
      exact ⟨prev, c :: rest, hs⟩
    | none =>
      rw [hs] at h
      exact ih (some c) r h

theorem mapLower_ivx (run : List Char)
    (hall : ∀ c ∈ run, c = 'i' ∨ c = 'v' ∨ c = 'x') :
    run.map Char.toLower = run := by
  induction run with
  | nil => rfl
  | cons c cs ih =>
    rw [List.map_cons, ih fun d hd => hall d (List.mem_cons_of_mem _ hd)]
    rcases hall c (List.mem_cons_self _ _) with rfl | rfl | rfl <;> rfl

theorem stageStep_family (run : List Char) (hne : run ≠ [])
    (hall : ∀ c ∈ run, c = 'i' ∨ c = 'v' ∨ c = 'x') :
    stageStep none ('s' :: 't' :: 'a' :: 'g' :: 'e' :: ' ' :: run) = some (run, []) := by
  obtain ⟨c, cs, rfl⟩ : ∃ c cs, run = c :: cs := by
    cases run with
    | nil => exact absurd rfl hne
    | cons c cs => exact ⟨c, cs, rfl⟩
  have hc := hall c (List.mem_cons_self _ _)
  have hcw : c.isWhitespace = false := by rcases hc with rfl | rfl | rfl <;> decide
  have h1 : List.dropWhile Char.isWhitespace (' ' :: c :: cs) = c :: cs := by
    rw [List.dropWhile_cons]
    simp only [show (' '.isWhitespace : Bool) = true from rfl, if_pos rfl]
    rw [List.dropWhile_cons, hcw]
    simp
  have h2 : List.takeWhile (fun d => decide (d = 'i' ∨ d = 'v' ∨ d = 'x')) (c :: cs) =
      c :: cs :=
    takeWhile_all _ (fun d hd => decide_eq_true (hall d hd))
  have h3 : List.dropWhile (fun d => decide (d = 'i' ∨ d = 'v' ∨ d = 'x')) (c :: cs) =
      [] :=
    dropWhile_all _ (fun d hd => decide_eq_true (hall d hd))
  have hred : stageStep none ('s' :: 't' :: 'a' :: 'g' :: 'e' :: ' ' :: c :: cs) =
      (if (List.takeWhile (fun d => decide (d = 'i' ∨ d = 'v' ∨ d = 'x'))
            (List.dropWhile Char.isWhitespace (' ' :: c :: cs))).isEmpty = true then none
       else stageTail
         (List.takeWhile (fun d => decide (d = 'i' ∨ d = 'v' ∨ d = 'x'))
           (List.dropWhile Char.isWhitespace (' ' :: c :: cs)))
         (List.dropWhile (fun d => decide (d = 'i' ∨ d = 'v' ∨ d = 'x'))
           (List.dropWhile Char.isWhitespace (' ' :: c :: cs)))
         (List.takeWhile Char.isWhitespace
           (List.dropWhile (fun d => decide (d = 'i' ∨ d = 'v' ∨ d = 'x'))
             (List.dropWhile Char.isWhitespace (' ' :: c :: cs)))).length) := rfl
  rw [hred, h1, h2, h3]
  rfl

theorem stage_family (run : List Char) (hne : run ≠ [])
    (hall : ∀ c ∈ run, c = 'i' ∨ c = 'v' ∨ c = 'x') :
    normalize_stage ("stage " ++ String.mk run) = some (String.mk (run.map Char.toUpper)) := by
  have hdata : ("stage " ++ String.mk run).data =
      's' :: 't' :: 'a' :: 'g' :: 'e' :: ' ' :: run := rfl
  have htext : ("stage " ++ String.mk run) ≠ "" := by
    intro h
    have : ("stage " ++ String.mk run).data = [] := by rw [h]
    rw [hdata] at this
    exact List.noConfusion this
  have hlow : (pyLower ("stage " ++ String.mk run)).data =
      's' :: 't' :: 'a' :: 'g' :: 'e' :: ' ' :: run := by
    have : (pyLower ("stage " ++ String.mk run)).data =
        ("stage " ++ String.mk run).data.map Char.toLower := rfl
    rw [this, hdata]
    simp only [List.map_cons]
    rw [mapLower_ivx run hall]
    rfl
  unfold normalize_stage
  rw [if_neg htext, hlow]
  unfold scanText
  rw [stageStep_family run hne hall]
  dsimp only
  simp only [List.map_nil]
  have happ : String.mk (run.map Char.toUpper) ++ String.mk [] =
      String.mk (run.map Char.toUpper) := by
    show String.mk (run.map Char.toUpper ++ []) = _
    rw [List.append_nil]
  rw [happ]

/-- Counterexample to claim C8: the stage pattern accepts any `[ivx]+` run,
not only I/II/III/IV — `"stage v"` yields `"V"` where the claim requires
none. -/
theorem C8_counterexample :
    normalize_stage "stage v" = some "V" ∧ normalize_stage "stage v" ≠ none := by
  refine ⟨by decide, by decide⟩

/-- Corrected C8: `normalize_stage` succeeds on `stage` followed by any
nonempty run of the roman letters i/v/x (optional a/b/c suffix, subject to
the regex word boundaries), returning the uppercased run and suffix; every
successful result has exactly that shape, and runs beyond I/II/III/IV, such
as `stage v`, are accepted rather than rejected. -/
theorem C8_normalize_stage :
    (∀ (t r : String), normalize_stage t = some r →
      ∃ roman suffix : List Char, roman ≠ [] ∧
        (∀ c ∈ roman, c = 'I' ∨ c = 'V' ∨ c = 'X') ∧
        (suffix = [] ∨ suffix = ['A'] ∨ suffix = ['B'] ∨ suffix = ['C']) ∧
        r = String.mk (roman ++ suffix)) ∧
    (∀ run : List Char, run ≠ [] → (∀ c ∈ run, c = 'i' ∨ c = 'v' ∨ c = 'x') →
      normalize_stage ("stage " ++ String.mk run) =
        some (String.mk (run.map Char.toUpper))) ∧
    normalize_stage "Pathologic Stage IIA." = some "IIA" ∧
    normalize_stage "stage iii" = some "III" ∧
    normalize_stage "stage iv b" = some "IVB" ∧
    normalize_stage "stage d" = none ∧
    normalize_stage "stages ii" = none ∧
    normalize_stage "no stage here" = none ∧
    normalize_stage "stage iid" = none := by
  refine ⟨?_, stage_family, by decide, by decide, by decide, by decide, by decide,
    by decide, by decide⟩
  intro t r h
  unfold normalize_stage at h
  split_ifs at h
  cases hscan : scanText stageStep none (pyLower t).data with
  | none => rw [hscan] at h; exact absurd h (by simp)
  | some pr =>
    obtain ⟨rm, sf⟩ := pr
    rw [hscan] at h
    dsimp only at h
    rw [Option.some.injEq] at h
    obtain ⟨prev', cs', hstep⟩ := scanText_shape _ _ _ _ hscan
    obtain ⟨hne, hall, hsf⟩ := stageStep_shape _ _ _ _ hstep
    refine ⟨rm.map Char.toUpper, sf.map Char.toUpper, ?_, ?_, ?_, ?_⟩
    · intro hh
      exact hne (List.map_eq_nil_iff.mp hh)
    · intro c hc
      obtain ⟨d, hd, rfl⟩ := List.mem_map.mp hc
      rcases hall d hd with rfl | rfl | rfl <;> decide
    · rcases hsf with rfl | rfl | rfl | rfl <;> [exact Or.inl rfl; skip; skip; skip]
      · exact Or.inr (Or.inl (by decide))
      · exact Or.inr (Or.inr (Or.inl (by decide)))
      · exact Or.inr (Or.inr (Or.inr (by decide)))
    · rw [← h]
      rfl

/-- Witness for C8 (amended): the family part applied at the concrete run
`vx`. -/
theorem C8_normalize_stage_witness :
    normalize_stage ("stage " ++ String.mk ['v', 'x']) =
      some (String.mk (['v', 'x'].map Char.toUpper)) :=
  C8_normalize_stage.2.1 ['v', 'x'] (by decide) (by decide)

-- ---------------------------------------------------------------------
-- Extraction lemmas (C5)
-- ---------------------------------------------------------------------

theorem dget_dset_ne (d : Dict) (k m : String) (v : PyVal) (h : m ≠ k) :
    dget (dset d k v) m = dget d m := by
  rw [dget_dset, if_neg h]

theorem fb_er_skip (text : String) (d : Dict) (h : dget d "er_status" ≠ .vnone) :
    fb_er text d = d := by
  unfold fb_er
  rw [if_neg h]

theorem dget_fb_pr_ne (text : String) (d : Dict) (m : String)
    (h : m ≠ "pr_status") : dget (fb_pr text d) m = dget d m := by
  unfold fb_pr
  split_ifs <;> simp [dget_dset, h]

theorem dget_fb_er_pct_ne (text : String) (d : Dict) (m : String)
    (h : m ≠ "er_percent") : dget (fb_er_pct text d) m = dget d m := by
  unfold fb_er_pct
  split_ifs with hc
  · cases _find_er_percent text <;> simp [dget_dset, h]
  · rfl

theorem dget_fb_pr_pct_ne (text : String) (d : Dict) (m : String)
    (h : m ≠ "pr_percent") : dget (fb_pr_pct text d) m = dget d m := by
  unfold fb_pr_pct
  split_ifs with hc
  · cases _find_pr_percent text <;> simp [dget_dset, h]
  · rfl

theorem dget_apply_her2_ne (i f e : Option String) (d : Dict) (m : String)
    (h1 : m ≠ "her2_status") (h2 : m ≠ "her2_ihc_score") (h3 : m ≠ "her2_fish") :
    dget (apply_her2 i f e d) m = dget d m := by
  unfold apply_her2
  simp [dget_dset, h1, h2, h3]

theorem processEnt_er_neg (text : String) (pid nid : String) (nd nt : Option String)
    (st : ExtractState) (m : Mention) (hm : m.label = "ER_NEG") :
    dget (processEnt text pid nid nd nt st m).phenos "er_status" =
      .vstr "Negative" := by
  unfold processEnt
  dsimp only
  rw [hm]
  rw [if_neg (by decide), if_pos rfl]
  cases _find_er_percent m.sent <;>
    simp [add_ev, dget_dset,
      show optToVal (normalize_status (some "Negative")) = .vstr "Negative" from by decide]

theorem processEnt_er_pos (text : String) (pid nid : String) (nd nt : Option String)
    (st : ExtractState) (m : Mention) (hm : m.label = "ER_POS") :
    dget (processEnt text pid nid nd nt st m).phenos "er_status" =
      .vstr "Positive" := by
  unfold processEnt
  dsimp only
  rw [hm]
  rw [if_pos rfl]
  cases _find_er_percent m.sent <;>
    simp [add_ev, dget_dset,
      show optToVal (normalize_status (some "Positive")) = .vstr "Positive" from by decide]

/-- Counterexample to claim C5: within one note the extraction loop
overwrites an already-set field — after mentions `[ER_POS, ER_NEG]` the
note record's `er_status` is `Negative`, not the first writer's `Positive`. -/
theorem C5_counterexample :
    dget (extract_note "" "p1" "n1" none none
      [⟨"ER_POS", "ER positive", 0, 11, "", false, false⟩,
       ⟨"ER_NEG", "ER negative", 12, 23, "", false, false⟩]).1 "er_status" =
      .vstr "Negative" ∧
    dget (extract_note "" "p1" "n1" none none
      [⟨"ER_POS", "ER positive", 0, 11, "", false, false⟩,
       ⟨"ER_NEG", "ER negative", 12, 23, "", false, false⟩]).1 "er_status" ≠
      .vstr "Positive" := by
  refine ⟨by decide, by decide⟩

/-- Corrected C5: within a single note's extraction the LAST mention that
successfully normalizes for a field determines its value — later mentions
overwrite earlier ones — except that a STAGE_GENERIC mention only fills a
stage field that is still unset. -/
theorem C5_last_writer_wins :
    (∀ (note_text : String) (pid nid : String) (nd nt : Option String)
      (ms : List Mention) (m : Mention), m.label = "ER_NEG" →
      dget (extract_note note_text pid nid nd nt (ms ++ [m])).1 "er_status" =
        .vstr "Negative") ∧
    (∀ (note_text : String) (pid nid : String) (nd nt : Option String)
      (ms : List Mention) (m : Mention), m.label = "ER_POS" →
      dget (extract_note note_text pid nid nd nt (ms ++ [m])).1 "er_status" =
        .vstr "Positive") ∧
    (dget (extract_note "" "p1" "n1" none none
        [⟨"STAGE_PATH", "stage iia", 0, 9, "", false, false⟩,
         ⟨"STAGE_GENERIC", "x", 0, 1, "stage i", false, false⟩]).1 "stage_path" =
      .vstr "IIA" ∧
     dget (extract_note "" "p1" "n1" none none
        [⟨"STAGE_PATH", "stage iia", 0, 9, "", false, false⟩,
         ⟨"STAGE_GENERIC", "x", 0, 1, "stage i", false, false⟩]).1 "stage_clinical" =
      .vstr "I") := by
  refine ⟨?_, ?_, by decide, by decide⟩
  · intro note_text pid nid nd nt ms m hm
    unfold extract_note
    dsimp only
    rw [List.foldl_append, List.foldl_cons, List.foldl_nil]
    rw [dget_apply_her2_ne _ _ _ _ "er_status" (by decide) (by decide) (by decide)]
    unfold apply_fallbacks
    rw [dget_fb_pr_pct_ne _ _ _ (by decide), dget_fb_er_pct_ne _ _ _ (by decide),
      dget_fb_pr_ne _ _ _ (by decide)]
    rw [fb_er_skip _ _ (by
      rw [processEnt_er_neg _ _ _ _ _ _ _ hm]
      decide)]
    exact processEnt_er_neg _ _ _ _ _ _ _ hm
  · intro note_text pid nid nd nt ms m hm
    unfold extract_note
    dsimp only
    rw [List.foldl_append, List.foldl_cons, List.foldl_nil]
    rw [dget_apply_her2_ne _ _ _ _ "er_status" (by decide) (by decide) (by decide)]
    unfold apply_fallbacks
    rw [dget_fb_pr_pct_ne _ _ _ (by decide), dget_fb_er_pct_ne _ _ _ (by decide),
      dget_fb_pr_ne _ _ _ (by decide)]
    rw [fb_er_skip _ _ (by
      rw [processEnt_er_pos _ _ _ _ _ _ _ hm]
      decide)]
    exact processEnt_er_pos _ _ _ _ _ _ _ hm

/-- Witness for C5 (amended): the last-writer property applied at a
concrete mention list. -/
theorem C5_last_writer_wins_witness :
    dget (extract_note "note" "p2" "n2" none none
      [⟨"ER_NEG", "ER negative", 0, 11, "", false, false⟩,
       ⟨"ER_POS", "ER positive", 12, 23, "", false, false⟩]).1 "er_status" =
      .vstr "Positive" :=
  C5_last_writer_wins.2.1 "note" "p2" "n2" none none
    [⟨"ER_NEG", "ER negative", 0, 11, "", false, false⟩]
    ⟨"ER_POS", "ER positive", 12, 23, "", false, false⟩ rfl
